import Mathlib

/-!
Verification development for the lightning-mini-peer repository.

The wire primitives (src/serialization/base_types.rs), the message codec
(src/messages.rs, src/message_decoder.rs), the peer dispatch logic
(src/peer.rs) and the handshake I/O sequence (src/node_connection.rs) are
shallowly embedded below.  Byte strings are `List Nat` together with a
well-formedness predicate stating every entry is below 256.  Rust `panic!`
sites (out-of-bounds slices and `.unwrap()` on `Err`) are modelled by an
explicit `panic` outcome of the decode-result type, so totality claims are
statable.
-/

namespace MiniPeerModel

abbrev Bytes := List Nat

/-- Every byte of the string is a valid u8 value. -/
def bytesWF (l : Bytes) : Prop := ∀ b ∈ l, b < 256

instance (l : Bytes) : Decidable (bytesWF l) := by
  unfold bytesWF; infer_instance

/-- Big-endian interpretation of a byte string as a natural number. -/
def beNat (l : Bytes) : Nat := l.foldl (fun acc b => acc * 256 + b) 0

/-- Big-endian encoding of `n` into exactly `w` bytes (`to_be_bytes` in Rust,
truncating above `256 ^ w` exactly as the machine integer type does). -/
def natToBe : Nat → Nat → Bytes
  | 0, _ => []
  | w + 1, n => natToBe w (n / 256) ++ [n % 256]

/-- The error type of src/serialization/mod.rs. -/
inductive SerializationError where
  | TooFewBytes
  | InvalidValue
  deriving DecidableEq, Repr

/-- Outcome of a Rust `from_bytes` call: success with value and remainder,
an `Err` return, or a panic (out-of-bounds index / `.unwrap()` on `Err`). -/
inductive DResult (α : Type) where
  | ok : α → Bytes → DResult α
  | err : SerializationError → DResult α
  | panic : DResult α
  deriving DecidableEq, Repr

/-- Sequencing with `?`: an `Err` propagates as `Err`. -/
def DResult.bind {α β : Type} (r : DResult α) (f : α → Bytes → DResult β) :
    DResult β :=
  match r with
  | .ok a rest => f a rest
  | .err e => .err e
  | .panic => .panic

/-- Sequencing with `.unwrap()`: an `Err` becomes a panic. -/
def DResult.ubind {α β : Type} (r : DResult α) (f : α → Bytes → DResult β) :
    DResult β :=
  match r with
  | .ok a rest => f a rest
  | .err _ => .panic
  | .panic => .panic

/-- Post-composition with a pure constructor. -/
def DResult.mapVal {α β : Type} (f : α → β) : DResult α → DResult β
  | .ok a r => .ok (f a) r
  | .err e => .err e
  | .panic => .panic

/-- `.unwrap()` directly on the result: `Err` becomes a panic. -/
def DResult.orPanic {α : Type} : DResult α → DResult α
  | .ok a r => .ok a r
  | .err _ => .panic
  | .panic => .panic

/-- Shared shape of the fixed-width integer decoders: `w` leading bytes read
big-endian, remainder returned, `TooFewBytes` when the input is shorter. -/
def decodeBeInt (w : Nat) (data : Bytes) : DResult Nat :=
  if data.length < w then .err .TooFewBytes
  else .ok (beNat (data.take w)) (data.drop w)

/-- Shared shape of the fixed-width raw-byte decoders
(`decode_32_bytes`, `decode_33_bytes`, `decode_64_bytes`, ...). -/
def decodeFixedBytes (w : Nat) (data : Bytes) : DResult Bytes :=
  if data.length < w then .err .TooFewBytes
  else .ok (data.take w) (data.drop w)

/-! ## Wire primitives (src/serialization/base_types.rs) -/

structure MessageTypeElement where
  id : Nat
  deriving DecidableEq, Repr

def MessageTypeElement.from_bytes (data : Bytes) : DResult MessageTypeElement :=
  (decodeBeInt 2 data).mapVal MessageTypeElement.mk

def MessageTypeElement.to_bytes (e : MessageTypeElement) : Bytes :=
  natToBe 2 e.id

structure WireU16SizedBytes where
  num_bytes : Nat
  value : Bytes
  deriving DecidableEq, Repr

/-- `WireU16SizedBytes::new`: `data.len() as u16` truncates modulo 2^16. -/
def WireU16SizedBytes.new (data : Bytes) : WireU16SizedBytes :=
  ⟨data.length % 65536, data⟩

/-- After the 2-byte length header the source slices
`data[2..2 + num_bytes]` with no bounds check, so a declared length larger
than the available bytes is an out-of-bounds panic, not an `Err`. -/
def WireU16SizedBytes.from_bytes (data : Bytes) : DResult WireU16SizedBytes :=
  match decodeBeInt 2 data with
  | .ok n rest =>
      if rest.length < n then .panic
      else .ok ⟨n, rest.take n⟩ (rest.drop n)
  | .err e => .err e
  | .panic => .panic

def WireU16SizedBytes.to_bytes (e : WireU16SizedBytes) : Bytes :=
  natToBe 2 e.num_bytes ++ e.value

structure IgnoredBytesElement where
  value : WireU16SizedBytes
  deriving DecidableEq, Repr

/-- The source unwraps the inner `WireU16SizedBytes` result. -/
def IgnoredBytesElement.from_bytes (data : Bytes) : DResult IgnoredBytesElement :=
  ((WireU16SizedBytes.from_bytes data).orPanic).mapVal IgnoredBytesElement.mk

def IgnoredBytesElement.to_bytes (e : IgnoredBytesElement) : Bytes :=
  e.value.to_bytes

structure Wire1Byte where
  value : Nat
  deriving DecidableEq, Repr

def Wire1Byte.from_bytes (data : Bytes) : DResult Wire1Byte :=
  (decodeBeInt 1 data).mapVal Wire1Byte.mk

def Wire1Byte.to_bytes (e : Wire1Byte) : Bytes :=
  natToBe 1 e.value

structure WireU16Int where
  value : Nat
  deriving DecidableEq, Repr

def WireU16Int.from_bytes (data : Bytes) : DResult WireU16Int :=
  (decodeBeInt 2 data).mapVal WireU16Int.mk

def WireU16Int.to_bytes (e : WireU16Int) : Bytes :=
  natToBe 2 e.value

structure WireU32Int where
  value : Nat
  deriving DecidableEq, Repr

def WireU32Int.from_bytes (data : Bytes) : DResult WireU32Int :=
  (decodeBeInt 4 data).mapVal WireU32Int.mk

def WireU32Int.to_bytes (e : WireU32Int) : Bytes :=
  natToBe 4 e.value

structure WireU64Int where
  value : Nat
  deriving DecidableEq, Repr

/-- The source checks `data.len() < 4` but then indexes `data[0] ..= data[7]`,
so inputs of length 4 to 7 panic instead of returning `TooFewBytes`. -/
def WireU64Int.from_bytes (data : Bytes) : DResult WireU64Int :=
  if data.length < 4 then .err .TooFewBytes
  else if data.length < 8 then .panic
  else .ok ⟨beNat (data.take 8)⟩ (data.drop 8)

def WireU64Int.to_bytes (e : WireU64Int) : Bytes :=
  natToBe 8 e.value

structure Wire3Bytes where
  value : Bytes
  deriving DecidableEq, Repr

def Wire3Bytes.from_bytes (data : Bytes) : DResult Wire3Bytes :=
  (decodeFixedBytes 3 data).mapVal Wire3Bytes.mk

def Wire3Bytes.to_bytes (e : Wire3Bytes) : Bytes := e.value

structure Bytes8Element where
  value : Bytes
  deriving DecidableEq, Repr

def Bytes8Element.from_bytes (data : Bytes) : DResult Bytes8Element :=
  (decodeFixedBytes 8 data).mapVal Bytes8Element.mk

def Bytes8Element.to_bytes (e : Bytes8Element) : Bytes := e.value

structure Wire32Bytes where
  value : Bytes
  deriving DecidableEq, Repr

/-- `decode_32_bytes(data).unwrap()`: a short input panics. -/
def Wire32Bytes.from_bytes (data : Bytes) : DResult Wire32Bytes :=
  ((decodeFixedBytes 32 data).orPanic).mapVal Wire32Bytes.mk

def Wire32Bytes.to_bytes (e : Wire32Bytes) : Bytes := e.value

structure ChainHashElement where
  value : Bytes
  deriving DecidableEq, Repr

/-- Also unwraps `decode_32_bytes`, so a short input panics. -/
def ChainHashElement.from_bytes (data : Bytes) : DResult ChainHashElement :=
  ((decodeFixedBytes 32 data).orPanic).mapVal ChainHashElement.mk

def ChainHashElement.to_bytes (e : ChainHashElement) : Bytes := e.value

structure NodeAliasElement where
  value : Wire32Bytes
  deriving DecidableEq, Repr

def NodeAliasElement.from_bytes (data : Bytes) : DResult NodeAliasElement :=
  (Wire32Bytes.from_bytes data).mapVal NodeAliasElement.mk

def NodeAliasElement.to_bytes (e : NodeAliasElement) : Bytes :=
  e.value.to_bytes

structure Wire33Bytes where
  value : Bytes
  deriving DecidableEq, Repr

/-- `decode_33_bytes(data).unwrap()`: a short input panics. -/
def Wire33Bytes.from_bytes (data : Bytes) : DResult Wire33Bytes :=
  ((decodeFixedBytes 33 data).orPanic).mapVal Wire33Bytes.mk

def Wire33Bytes.to_bytes (e : Wire33Bytes) : Bytes := e.value

structure PointElement where
  value : Bytes
  deriving DecidableEq, Repr

/-- Also unwraps `decode_33_bytes`, so a short input panics. -/
def PointElement.from_bytes (data : Bytes) : DResult PointElement :=
  ((decodeFixedBytes 33 data).orPanic).mapVal PointElement.mk

def PointElement.to_bytes (e : PointElement) : Bytes := e.value

structure Wire64Bytes where
  value : Bytes
  deriving DecidableEq, Repr

def Wire64Bytes.from_bytes (data : Bytes) : DResult Wire64Bytes :=
  (decodeFixedBytes 64 data).mapVal Wire64Bytes.mk

def Wire64Bytes.to_bytes (e : Wire64Bytes) : Bytes := e.value

structure SignatureElement where
  value : Bytes
  deriving DecidableEq, Repr

def SignatureElement.from_bytes (data : Bytes) : DResult SignatureElement :=
  (decodeFixedBytes 64 data).mapVal SignatureElement.mk

def SignatureElement.to_bytes (e : SignatureElement) : Bytes := e.value

structure ShortChannelIDElement where
  block_height : Nat
  tx_index : Nat
  output_index : Nat
  deriving DecidableEq, Repr

def ShortChannelIDElement.from_bytes (data : Bytes) :
    DResult ShortChannelIDElement :=
  if data.length < 8 then .err .TooFewBytes
  else
    .ok
      ⟨beNat (data.take 3), beNat ((data.drop 3).take 3),
        beNat ((data.drop 6).take 2)⟩
      (data.drop 8)

/-- Bytes 1..=3 of each u32 `to_be_bytes`, then both bytes of the u16:
3-byte block height, 3-byte tx index, 2-byte output index. -/
def ShortChannelIDElement.to_bytes (e : ShortChannelIDElement) : Bytes :=
  natToBe 3 e.block_height ++ natToBe 3 e.tx_index ++ natToBe 2 e.output_index

structure RemainderTypeWire where
  value : Bytes
  deriving DecidableEq, Repr

def RemainderTypeWire.from_bytes (data : Bytes) : DResult RemainderTypeWire :=
  .ok ⟨data⟩ []

def RemainderTypeWire.to_bytes (e : RemainderTypeWire) : Bytes := e.value

/-! ### node_addresses -/

structure NodeAddressesElement where
  ipv4_addresses : List Bytes
  ipv6_addresses : List Bytes
  torv2_addresses : List Bytes
  torv3_addresses : List Bytes
  dns_hostname : Bytes
  deriving DecidableEq, Repr

/-- The decode loop of `NodeAddressesElement::from_bytes`: one pass over the
inner payload, dispatching on the 1-byte discriminator.  Each fixed-width
case slices `buf[..k]` without a bounds check, so truncation panics; case 5
consumes the whole rest of the buffer; any other discriminator is
`InvalidValue`.  `fuel` is a structural bound on the number of iterations:
every pass consumes at least the discriminator byte, so starting the loop
with `fuel = buf.length` makes the out-of-fuel arm unreachable. -/
def nodeAddrLoop (fuel : Nat) (buf : Bytes) (acc : NodeAddressesElement) :
    DResult NodeAddressesElement :=
  match fuel, buf with
  | _, [] => .ok acc []
  | 0, _ :: _ => .panic
  | f + 1, d :: rest =>
    if d = 1 then
      if rest.length < 6 then .panic
      else
        nodeAddrLoop f (rest.drop 6)
          { acc with ipv4_addresses := acc.ipv4_addresses ++ [rest.take 6] }
    else if d = 2 then
      if rest.length < 18 then .panic
      else
        nodeAddrLoop f (rest.drop 18)
          { acc with ipv6_addresses := acc.ipv6_addresses ++ [rest.take 18] }
    else if d = 3 then
      if rest.length < 12 then .panic
      else
        nodeAddrLoop f (rest.drop 12)
          { acc with torv2_addresses := acc.torv2_addresses ++ [rest.take 12] }
    else if d = 4 then
      if rest.length < 37 then .panic
      else
        nodeAddrLoop f (rest.drop 37)
          { acc with torv3_addresses := acc.torv3_addresses ++ [rest.take 37] }
    else if d = 5 then
      nodeAddrLoop f [] { acc with dns_hostname := acc.dns_hostname ++ rest }
    else .err .InvalidValue

/-- The outer `WireU16SizedBytes` result is unwrapped (`Err` panics); the
remainder handed back is the remainder after the sized wrapper. -/
def NodeAddressesElement.from_bytes (data : Bytes) :
    DResult NodeAddressesElement :=
  match WireU16SizedBytes.from_bytes data with
  | .ok w rest =>
      match nodeAddrLoop w.value.length w.value ⟨[], [], [], [], []⟩ with
      | .ok e _ => .ok e rest
      | .err e => .err e
      | .panic => .panic
  | .err _ => .panic
  | .panic => .panic

/-- Encoding always emits IPv4 entries first, then IPv6, Tor v2, Tor v3, and
a trailing DNS tag only when the hostname is nonempty. -/
def NodeAddressesElement.encodedInner (e : NodeAddressesElement) : Bytes :=
  (e.ipv4_addresses.map (fun a => 1 :: a)).flatten ++
    (e.ipv6_addresses.map (fun a => 2 :: a)).flatten ++
    (e.torv2_addresses.map (fun a => 3 :: a)).flatten ++
    (e.torv3_addresses.map (fun a => 4 :: a)).flatten ++
    (if e.dns_hostname.isEmpty then [] else 5 :: e.dns_hostname)

def NodeAddressesElement.to_bytes (e : NodeAddressesElement) : Bytes :=
  (WireU16SizedBytes.new e.encodedInner).to_bytes

/-! ## Message types (src/messages.rs) -/

inductive MessageType where
  | Unknown | Warning | Stfu
  | Init | Error | Ping | Pong
  | OpenChannel | AcceptChannel | FundingCreated | FundingSigned
  | ChannelReady | Shutdown | ClosingSigned | ClosingComplete | ClosingSig
  | OpenChannel2 | AcceptChannel2
  | TxAddInput | TxAddOutput | TxRemoveInput | TxRemoveOutput | TxComplete
  | TxSignatures | TxInitRbf | TxAckRbf | TxAbort
  | UpdateAddHTLC | UpdateFulfillHTLC | UpdateFailHTLC | CommitmentSigned
  | RevokeAndAck | UpdateFee | UpdateFailMalformedHTLC | ChannelReestablish
  | ChannelAnnouncement | NodeAnnouncement | ChannelUpdate
  | AnnouncementSignatures
  | QueryShortChannelIds | ReplyShortChannelIdsEnd | QueryChannelRange
  | ReplyChannelRange | GossipTimestampFilter
  deriving DecidableEq, Repr

def MessageType.as_u16 : MessageType → Nat
  | .Unknown => 0
  | .Warning => 1
  | .Stfu => 2
  | .Init => 16
  | .Error => 17
  | .Ping => 18
  | .Pong => 19
  | .OpenChannel => 32
  | .AcceptChannel => 33
  | .FundingCreated => 34
  | .FundingSigned => 35
  | .ChannelReady => 36
  | .Shutdown => 38
  | .ClosingSigned => 39
  | .ClosingComplete => 40
  | .ClosingSig => 41
  | .OpenChannel2 => 64
  | .AcceptChannel2 => 65
  | .TxAddInput => 66
  | .TxAddOutput => 67
  | .TxRemoveInput => 68
  | .TxRemoveOutput => 69
  | .TxComplete => 70
  | .TxSignatures => 71
  | .TxInitRbf => 72
  | .TxAckRbf => 73
  | .TxAbort => 74
  | .UpdateAddHTLC => 128
  | .UpdateFulfillHTLC => 130
  | .UpdateFailHTLC => 131
  | .CommitmentSigned => 132
  | .RevokeAndAck => 133
  | .UpdateFee => 134
  | .UpdateFailMalformedHTLC => 135
  | .ChannelReestablish => 136
  | .ChannelAnnouncement => 256
  | .NodeAnnouncement => 257
  | .ChannelUpdate => 258
  | .AnnouncementSignatures => 259
  | .QueryShortChannelIds => 261
  | .ReplyShortChannelIdsEnd => 262
  | .QueryChannelRange => 263
  | .ReplyChannelRange => 264
  | .GossipTimestampFilter => 265

/-- Declaration order of the `MessageType` enum, the order `EnumIter`
iterates in. -/
def MessageType.all : List MessageType :=
  [.Unknown, .Warning, .Stfu, .Init, .Error, .Ping, .Pong,
   .OpenChannel, .AcceptChannel, .FundingCreated, .FundingSigned,
   .ChannelReady, .Shutdown, .ClosingSigned, .ClosingComplete, .ClosingSig,
   .OpenChannel2, .AcceptChannel2,
   .TxAddInput, .TxAddOutput, .TxRemoveInput, .TxRemoveOutput, .TxComplete,
   .TxSignatures, .TxInitRbf, .TxAckRbf, .TxAbort,
   .UpdateAddHTLC, .UpdateFulfillHTLC, .UpdateFailHTLC, .CommitmentSigned,
   .RevokeAndAck, .UpdateFee, .UpdateFailMalformedHTLC, .ChannelReestablish,
   .ChannelAnnouncement, .NodeAnnouncement, .ChannelUpdate,
   .AnnouncementSignatures,
   .QueryShortChannelIds, .ReplyShortChannelIdsEnd, .QueryChannelRange,
   .ReplyChannelRange, .GossipTimestampFilter]

/-- `MessageType::from_int`: linear search of the enum for a matching
discriminant. -/
def MessageType.from_int (n : Nat) : Option MessageType :=
  MessageType.all.find? (fun v => v.as_u16 == n)

def MessageTypeElement.new (t : MessageType) : MessageTypeElement :=
  ⟨t.as_u16⟩

structure InitMessage where
  global_features : Bytes
  local_features : Bytes
  tlv : Bytes
  deriving DecidableEq, Repr

def InitMessage.from_bytes (data : Bytes) : DResult InitMessage :=
  DResult.bind (MessageTypeElement.from_bytes data) fun _ data =>
  DResult.bind (WireU16SizedBytes.from_bytes data) fun gf data =>
  DResult.bind (WireU16SizedBytes.from_bytes data) fun lf data =>
  DResult.bind (RemainderTypeWire.from_bytes data) fun tlv data =>
  .ok ⟨gf.value, lf.value, tlv.value⟩ data

def InitMessage.to_bytes (m : InitMessage) : Bytes :=
  (MessageTypeElement.new .Init).to_bytes ++
    (WireU16SizedBytes.new m.global_features).to_bytes ++
    (WireU16SizedBytes.new m.local_features).to_bytes ++
    (RemainderTypeWire.mk m.tlv).to_bytes

structure PingMessage where
  num_pong_bytes : Nat
  ignored : Bytes
  deriving DecidableEq, Repr

def PingMessage.from_bytes (data : Bytes) : DResult PingMessage :=
  DResult.bind (MessageTypeElement.from_bytes data) fun _ data =>
  DResult.bind (WireU16Int.from_bytes data) fun np data =>
  DResult.bind (WireU16SizedBytes.from_bytes data) fun ig data =>
  .ok ⟨np.value, ig.value⟩ data

def PingMessage.to_bytes (m : PingMessage) : Bytes :=
  (MessageTypeElement.new .Ping).to_bytes ++
    (WireU16Int.mk m.num_pong_bytes).to_bytes ++
    (WireU16SizedBytes.new m.ignored).to_bytes

structure PongMessage where
  ignored : Bytes
  deriving DecidableEq, Repr

/-- `PongMessage::from_ping`: the reply carries `num_pong_bytes` zero bytes;
nothing of the ping's own ignored payload is consulted. -/
def PongMessage.from_ping (ping : PingMessage) : PongMessage :=
  ⟨List.replicate ping.num_pong_bytes 0⟩

def PongMessage.from_bytes (data : Bytes) : DResult PongMessage :=
  DResult.bind (MessageTypeElement.from_bytes data) fun _ data =>
  DResult.bind (WireU16SizedBytes.from_bytes data) fun ig data =>
  .ok ⟨ig.value⟩ data

def PongMessage.to_bytes (m : PongMessage) : Bytes :=
  (MessageTypeElement.new .Pong).to_bytes ++
    (WireU16SizedBytes.new m.ignored).to_bytes

structure ChannelAnnouncementMessage where
  node_signature_1 : Bytes
  node_signature_2 : Bytes
  bitcoin_signature_1 : Bytes
  bitcoin_signature_2 : Bytes
  features : Bytes
  chain_hash : Bytes
  short_channel_id : ShortChannelIDElement
  node_id_1 : Bytes
  node_id_2 : Bytes
  bitcoin_node_id_1 : Bytes
  bitcoin_node_id_2 : Bytes
  deriving DecidableEq, Repr

def ChannelAnnouncementMessage.from_bytes (data : Bytes) :
    DResult ChannelAnnouncementMessage :=
  DResult.bind (MessageTypeElement.from_bytes data) fun _ data =>
  DResult.bind (SignatureElement.from_bytes data) fun ns1 data =>
  DResult.bind (SignatureElement.from_bytes data) fun ns2 data =>
  DResult.bind (SignatureElement.from_bytes data) fun bs1 data =>
  DResult.bind (SignatureElement.from_bytes data) fun bs2 data =>
  DResult.bind (WireU16SizedBytes.from_bytes data) fun feats data =>
  DResult.bind (ChainHashElement.from_bytes data) fun ch data =>
  DResult.bind (ShortChannelIDElement.from_bytes data) fun scid data =>
  DResult.bind (PointElement.from_bytes data) fun n1 data =>
  DResult.bind (PointElement.from_bytes data) fun n2 data =>
  DResult.bind (PointElement.from_bytes data) fun b1 data =>
  DResult.bind (PointElement.from_bytes data) fun b2 data =>
  .ok
    ⟨ns1.value, ns2.value, bs1.value, bs2.value, feats.value, ch.value, scid,
      n1.value, n2.value, b1.value, b2.value⟩
    data

def ChannelAnnouncementMessage.to_bytes (m : ChannelAnnouncementMessage) :
    Bytes :=
  (MessageTypeElement.new .ChannelAnnouncement).to_bytes ++
    m.node_signature_1 ++ m.node_signature_2 ++
    m.bitcoin_signature_1 ++ m.bitcoin_signature_2 ++
    (WireU16SizedBytes.new m.features).to_bytes ++
    m.chain_hash ++ m.short_channel_id.to_bytes ++
    m.node_id_1 ++ m.node_id_2 ++ m.bitcoin_node_id_1 ++ m.bitcoin_node_id_2

structure GossipTimestampFilterMessage where
  chain_hash : Bytes
  first_timestamp : Nat
  timestamp_range : Nat
  deriving DecidableEq, Repr

def GossipTimestampFilterMessage.from_bytes (data : Bytes) :
    DResult GossipTimestampFilterMessage :=
  DResult.bind (MessageTypeElement.from_bytes data) fun _ data =>
  DResult.bind (ChainHashElement.from_bytes data) fun ch data =>
  DResult.bind (WireU32Int.from_bytes data) fun ft data =>
  DResult.bind (WireU32Int.from_bytes data) fun tr data =>
  .ok ⟨ch.value, ft.value, tr.value⟩ data

def GossipTimestampFilterMessage.to_bytes
    (m : GossipTimestampFilterMessage) : Bytes :=
  (MessageTypeElement.new .GossipTimestampFilter).to_bytes ++
    m.chain_hash ++ (WireU32Int.mk m.first_timestamp).to_bytes ++
    (WireU32Int.mk m.timestamp_range).to_bytes

structure QueryChannelRangeMessage where
  chain_hash : Bytes
  first_blocknum : Nat
  number_of_blocks : Nat
  query_range_tlvs : Bytes
  deriving DecidableEq, Repr

def QueryChannelRangeMessage.from_bytes (data : Bytes) :
    DResult QueryChannelRangeMessage :=
  DResult.bind (MessageTypeElement.from_bytes data) fun _ data =>
  DResult.bind (ChainHashElement.from_bytes data) fun ch data =>
  DResult.bind (WireU32Int.from_bytes data) fun fb data =>
  DResult.bind (WireU32Int.from_bytes data) fun nb data =>
  DResult.bind (RemainderTypeWire.from_bytes data) fun tlvs data =>
  .ok ⟨ch.value, fb.value, nb.value, tlvs.value⟩ data

def QueryChannelRangeMessage.to_bytes (m : QueryChannelRangeMessage) :
    Bytes :=
  (MessageTypeElement.new .QueryChannelRange).to_bytes ++
    m.chain_hash ++ (WireU32Int.mk m.first_blocknum).to_bytes ++
    (WireU32Int.mk m.number_of_blocks).to_bytes ++ m.query_range_tlvs

structure ReplyChannelRangeMessage where
  chain_hash : Bytes
  first_blocknum : Nat
  number_of_blocks : Nat
  sync_complete : Nat
  encoded_short_ids : Bytes
  reply_channel_range_tlvs : Bytes
  deriving DecidableEq, Repr

def ReplyChannelRangeMessage.from_bytes (data : Bytes) :
    DResult ReplyChannelRangeMessage :=
  DResult.bind (MessageTypeElement.from_bytes data) fun _ data =>
  DResult.bind (ChainHashElement.from_bytes data) fun ch data =>
  DResult.bind (WireU32Int.from_bytes data) fun fb data =>
  DResult.bind (WireU32Int.from_bytes data) fun nb data =>
  DResult.bind (Wire1Byte.from_bytes data) fun sc data =>
  DResult.bind (WireU16SizedBytes.from_bytes data) fun ids data =>
  DResult.bind (RemainderTypeWire.from_bytes data) fun tlvs data =>
  .ok ⟨ch.value, fb.value, nb.value, sc.value, ids.value, tlvs.value⟩ data

def ReplyChannelRangeMessage.to_bytes (m : ReplyChannelRangeMessage) :
    Bytes :=
  (MessageTypeElement.new .ReplyChannelRange).to_bytes ++
    m.chain_hash ++ (WireU32Int.mk m.first_blocknum).to_bytes ++
    (WireU32Int.mk m.number_of_blocks).to_bytes ++
    (Wire1Byte.mk m.sync_complete).to_bytes ++
    (WireU16SizedBytes.new m.encoded_short_ids).to_bytes ++
    m.reply_channel_range_tlvs

structure NodeAnnouncementMessage where
  signature : Bytes
  features : Bytes
  timestamp : Nat
  node_id : Bytes
  rgb_color : Bytes
  «alias» : Bytes
  addresses : NodeAddressesElement
  deriving DecidableEq, Repr

def NodeAnnouncementMessage.from_bytes (data : Bytes) :
    DResult NodeAnnouncementMessage :=
  DResult.bind (MessageTypeElement.from_bytes data) fun _ data =>
  DResult.bind (SignatureElement.from_bytes data) fun sig data =>
  DResult.bind (WireU16SizedBytes.from_bytes data) fun feats data =>
  DResult.bind (WireU32Int.from_bytes data) fun ts data =>
  DResult.bind (PointElement.from_bytes data) fun nid data =>
  DResult.bind (Wire3Bytes.from_bytes data) fun rgb data =>
  DResult.bind (Wire32Bytes.from_bytes data) fun al data =>
  DResult.bind (NodeAddressesElement.from_bytes data) fun addrs data =>
  .ok
    ⟨sig.value, feats.value, ts.value, nid.value, rgb.value, al.value, addrs⟩
    data

def NodeAnnouncementMessage.to_bytes (m : NodeAnnouncementMessage) : Bytes :=
  (MessageTypeElement.new .NodeAnnouncement).to_bytes ++
    m.signature ++ (WireU16SizedBytes.new m.features).to_bytes ++
    (WireU32Int.mk m.timestamp).to_bytes ++ m.node_id ++ m.rgb_color ++
    m.«alias» ++ m.addresses.to_bytes

structure ChannelUpdateMessage where
  signature : Bytes
  chain_hash : Bytes
  short_channel_id : ShortChannelIDElement
  timestamp : Nat
  message_flags : Nat
  channel_flags : Nat
  cltv_expiry_delta : Nat
  htlc_minimum_msat : Nat
  fee_base_msat : Nat
  fee_proportional_millionths : Nat
  htlc_maximum_msat : Nat
  deriving DecidableEq, Repr

/-- Every field decode after the type tag is `.unwrap()`ed in the source, so
a `TooFewBytes` inside the body panics rather than erroring. -/
def ChannelUpdateMessage.from_bytes (data : Bytes) :
    DResult ChannelUpdateMessage :=
  DResult.bind (MessageTypeElement.from_bytes data) fun _ data =>
  DResult.ubind (SignatureElement.from_bytes data) fun sig data =>
  DResult.ubind (ChainHashElement.from_bytes data) fun ch data =>
  DResult.ubind (ShortChannelIDElement.from_bytes data) fun scid data =>
  DResult.ubind (WireU32Int.from_bytes data) fun ts data =>
  DResult.ubind (Wire1Byte.from_bytes data) fun mf data =>
  DResult.ubind (Wire1Byte.from_bytes data) fun cf data =>
  DResult.ubind (WireU16Int.from_bytes data) fun cltv data =>
  DResult.ubind (WireU64Int.from_bytes data) fun hmin data =>
  DResult.ubind (WireU32Int.from_bytes data) fun fee data =>
  DResult.ubind (WireU32Int.from_bytes data) fun prop data =>
  DResult.ubind (WireU64Int.from_bytes data) fun hmax data =>
  .ok
    ⟨sig.value, ch.value, scid, ts.value, mf.value, cf.value, cltv.value,
      hmin.value, fee.value, prop.value, hmax.value⟩
    data

def ChannelUpdateMessage.to_bytes (m : ChannelUpdateMessage) : Bytes :=
  (MessageTypeElement.new .ChannelUpdate).to_bytes ++
    m.signature ++ m.chain_hash ++ m.short_channel_id.to_bytes ++
    (WireU32Int.mk m.timestamp).to_bytes ++
    (Wire1Byte.mk m.message_flags).to_bytes ++
    (Wire1Byte.mk m.channel_flags).to_bytes ++
    (WireU16Int.mk m.cltv_expiry_delta).to_bytes ++
    (WireU64Int.mk m.htlc_minimum_msat).to_bytes ++
    (WireU32Int.mk m.fee_base_msat).to_bytes ++
    (WireU32Int.mk m.fee_proportional_millionths).to_bytes ++
    (WireU64Int.mk m.htlc_maximum_msat).to_bytes

structure UnknownMessage where
  type_id : Nat
  data : Bytes
  deriving DecidableEq, Repr

def UnknownMessage.from_bytes (data : Bytes) : DResult UnknownMessage :=
  DResult.bind (MessageTypeElement.from_bytes data) fun mt data =>
  .ok ⟨mt.id, data⟩ []

def UnknownMessage.to_bytes (m : UnknownMessage) : Bytes :=
  natToBe 2 m.type_id ++ m.data

/-! ## Message decoder (src/message_decoder.rs) -/

inductive MessageContainer where
  | Init : InitMessage → MessageContainer
  | Ping : PingMessage → MessageContainer
  | Pong : PongMessage → MessageContainer
  | ChannelAnnouncement : ChannelAnnouncementMessage → MessageContainer
  | NodeAnnouncement : NodeAnnouncementMessage → MessageContainer
  | GossipTimestampFilter : GossipTimestampFilterMessage → MessageContainer
  | QueryChannelRange : QueryChannelRangeMessage → MessageContainer
  | ReplyChannelRange : ReplyChannelRangeMessage → MessageContainer
  | ChannelUpdate : ChannelUpdateMessage → MessageContainer
  | Unknown : UnknownMessage → MessageContainer
  deriving DecidableEq, Repr

def MessageContainer.to_bytes : MessageContainer → Bytes
  | .Init m => m.to_bytes
  | .Ping m => m.to_bytes
  | .Pong m => m.to_bytes
  | .ChannelAnnouncement m => m.to_bytes
  | .NodeAnnouncement m => m.to_bytes
  | .GossipTimestampFilter m => m.to_bytes
  | .QueryChannelRange m => m.to_bytes
  | .ReplyChannelRange m => m.to_bytes
  | .ChannelUpdate m => m.to_bytes
  | .Unknown m => m.to_bytes

def MessageContainer.isNodeAnnouncement : MessageContainer → Bool
  | .NodeAnnouncement _ => true
  | _ => false

/-- Outcome of `MessageDecoder::from_bytes`: the error branch is the opaque
`MessageDecoderError::Error`. -/
inductive MDResult where
  | ok : MessageContainer → Bytes → MDResult
  | err : MDResult
  | panic : MDResult
  deriving DecidableEq, Repr

def liftMsg {α : Type} (wrap : α → MessageContainer) (r : DResult α) :
    MDResult :=
  match r with
  | .ok m rest => .ok (wrap m) rest
  | .err _ => .err
  | .panic => .panic

/-- `MessageDecoder::from_bytes` peeks the 2-byte tag, then
`MessageType::from_int(id).unwrap()` — a tag absent from the enum panics —
and dispatches; enum variants without a dedicated decoder fall through to
`UnknownMessage`. -/
def MessageDecoder.from_bytes (bytes : Bytes) : MDResult :=
  match MessageTypeElement.from_bytes bytes with
  | .err _ => .err
  | .panic => .panic
  | .ok mt _ =>
    match MessageType.from_int mt.id with
    | none => .panic
    | some t =>
      match t with
      | .Init => liftMsg .Init (InitMessage.from_bytes bytes)
      | .Ping => liftMsg .Ping (PingMessage.from_bytes bytes)
      | .Pong => liftMsg .Pong (PongMessage.from_bytes bytes)
      | .ChannelAnnouncement =>
          liftMsg .ChannelAnnouncement
            (ChannelAnnouncementMessage.from_bytes bytes)
      | .NodeAnnouncement =>
          liftMsg .NodeAnnouncement (NodeAnnouncementMessage.from_bytes bytes)
      | .GossipTimestampFilter =>
          liftMsg .GossipTimestampFilter
            (GossipTimestampFilterMessage.from_bytes bytes)
      | .ReplyChannelRange =>
          liftMsg .ReplyChannelRange (ReplyChannelRangeMessage.from_bytes bytes)
      | .QueryChannelRange =>
          liftMsg .QueryChannelRange (QueryChannelRangeMessage.from_bytes bytes)
      | .ChannelUpdate =>
          liftMsg .ChannelUpdate (ChannelUpdateMessage.from_bytes bytes)
      | _ => liftMsg .Unknown (UnknownMessage.from_bytes bytes)

/-! ## Node descriptors (src/node.rs) and `as_node` -/

/-- A node descriptor: 33-byte public key plus reachable address.  The
dotted-quad host string is kept as the four raw address bytes. -/
structure Node where
  public_key : Bytes
  ip_bytes : Bytes
  port : Nat
  deriving DecidableEq, Repr

/-- `NodeAnnouncementMessage::as_node` in the revision peer.rs dispatches on:
the first IPv4 entry, if any, as a connectable node (the 6-byte entry is
4 address bytes then a big-endian port). -/
def NodeAnnouncementMessage.as_node (m : NodeAnnouncementMessage) :
    Option Node :=
  match m.addresses.ipv4_addresses with
  | [] => none
  | a :: _ => some ⟨m.node_id, a.take 4, beNat ((a.drop 4).take 2)⟩

/-! ## Peer state and dispatch (src/peer.rs)

`MiniPeer` owns a `HashMap` from 33-byte public key to connection object, a
known-channels map and a known-nodes map.  Connections are network objects;
only their keys decide the control flow of peer.rs, so the embedding keeps
the key set, and models the two external effects — sending on a connection
and opening a new one — by a sent-message list and by oracle parameters for
the outcomes of the TCP connect, the Noise handshake, and each send. -/

/-- Association-list model of `HashMap::insert` (replacing any previous
binding of the key). -/
def mapInsert {κ ν : Type} [DecidableEq κ] (k : κ) (v : ν)
    (m : List (κ × ν)) : List (κ × ν) :=
  (k, v) :: m.filter (fun p => decide (p.1 ≠ k))

/-- Association-list model of `HashMap::contains_key`. -/
def mapContains {κ ν : Type} [DecidableEq κ] (m : List (κ × ν)) (k : κ) :
    Bool :=
  m.any (fun p => decide (p.1 = k))

/-- Association-list model of `HashMap::get`. -/
def mapLookup {κ ν : Type} [DecidableEq κ] (m : List (κ × ν)) (k : κ) :
    Option ν :=
  (m.find? (fun p => decide (p.1 = k))).map Prod.snd

/-- Key-set model of inserting into the connection map. -/
def keyInsert (k : Bytes) (l : List Bytes) : List Bytes :=
  if k ∈ l then l else k :: l

structure MiniPeer where
  node_connections : List Bytes
  known_channels : List (ShortChannelIDElement × ChannelAnnouncementMessage)
  known_nodes : List (Bytes × NodeAnnouncementMessage)
  deriving DecidableEq, Repr

/-- Which step of `open_node_connection`'s external I/O fails, if any:
`NodeConnection::new` (TCP connect), `handshake`, or neither. -/
inductive ConnectStep where
  | connectFail
  | handshakeFail
  | success
  deriving DecidableEq, Repr

/-- The two variants of peer.rs's `MessageHandlerError`. -/
inductive MessageHandlerError where
  | NodeConnectionError
  | NodeHandshakeError
  deriving DecidableEq, Repr

/-- Result of `open_node_connection`: the peer state is threaded through
`&mut self`, so both `Ok` and `Err` return it; `sent` lists the messages
written to the new connection. -/
inductive OpenResult where
  | ok : MiniPeer → List MessageContainer → OpenResult
  | err : MessageHandlerError → MiniPeer → OpenResult
  | panic : OpenResult
  deriving DecidableEq, Repr

/-- The hard-coded init message bytes of peer.rs
(`\x00\x10\x00\x00\x00\x01\xaa`): type 16, empty global features, one
local-features byte 0xAA, empty trailing tlv. -/
def init_bytes : Bytes := [0, 16, 0, 0, 0, 1, 170]

/-- `MiniPeer::open_node_connection`: on connect or handshake failure the
error is returned before any map mutation; on success the hard-coded init is
decoded (`.unwrap()`), sent (`.unwrap()`), and only then is the connection
key inserted. -/
def MiniPeer.open_node_connection (st : MiniPeer) (node : Node)
    (step : ConnectStep) (sendOk : Bool) : OpenResult :=
  match step with
  | .connectFail => .err .NodeConnectionError st
  | .handshakeFail => .err .NodeHandshakeError st
  | .success =>
    match InitMessage.from_bytes init_bytes with
    | .ok im _ =>
        if sendOk then
          .ok
            { st with
              node_connections := keyInsert node.public_key st.node_connections }
            [MessageContainer.Init im]
        else .panic
    | _ => .panic

/-- Result of `handle_inbound_message`; `sent` pairs each outbound message
with the public key of the connection it was written to. -/
inductive DispatchResult where
  | ok : MiniPeer → List (Bytes × MessageContainer) → DispatchResult
  | err : MiniPeer → DispatchResult
  | panic : DispatchResult
  deriving DecidableEq, Repr

/-- `MiniPeer::handle_inbound_message`.  `do_connect` is the
`DO_CONNECT_TO_NEW_NODES` configuration constant; `sendOk` is the outcome of
the send performed in the ping and gossip-filter branches; `connStep` and
`connSendOk` feed the nested `open_node_connection` call of the
node-announcement branch (whose `Err` is `.unwrap()`ed).  The source first
does `self.node_connections.get_mut(&node_public_key).unwrap()`, so an
unknown sender key panics before any branch runs. -/
def MiniPeer.handle_inbound_message (st : MiniPeer)
    (wrapped : MessageContainer) (node_public_key : Bytes)
    (do_connect : Bool) (sendOk : Bool) (connStep : ConnectStep)
    (connSendOk : Bool) : DispatchResult :=
  if node_public_key ∈ st.node_connections then
    match wrapped with
    | .Ping ping =>
        if sendOk then
          .ok st [(node_public_key, .Pong (PongMessage.from_ping ping))]
        else .err st
    | .NodeAnnouncement ann =>
        if ann.node_id ∈ st.node_connections then .ok st []
        else
          let st1 :=
            if mapContains st.known_nodes ann.node_id then st
            else { st with known_nodes := mapInsert ann.node_id ann st.known_nodes }
          match ann.as_node with
          | some node =>
              if do_connect then
                match st1.open_node_connection node connStep connSendOk with
                | .ok st2 sent =>
                    .ok st2 (sent.map (fun m => (node.public_key, m)))
                | .err _ _ => .panic
                | .panic => .panic
              else .ok st1 []
          | none => .ok st1 []
    | .ChannelAnnouncement msg =>
        if mapContains st.known_channels msg.short_channel_id then .ok st []
        else
          .ok
            { st with
              known_channels := mapInsert msg.short_channel_id msg st.known_channels }
            []
    | .GossipTimestampFilter gtf =>
        if sendOk then
          .ok st
            [(node_public_key,
              .GossipTimestampFilter { gtf with first_timestamp := 0 })]
        else .err st
    | _ => .ok st []
  else .panic

/-! ## Handshake I/O sequence (src/node_connection.rs)

`NodeConnection::handshake` performs exactly: `send_act_one` (a write),
`read_n_bytes(66)` (a single `read` into a 66-byte buffer), then
`process_act_two` which writes Act Three.  The trace below records that
sequence together with the byte count each read requested. -/

inductive HandshakeStep where
  | writeActOne
  | readRequest (num_bytes : Nat)
  | writeActThree
  deriving DecidableEq, Repr

def NodeConnection.handshake_io : List HandshakeStep :=
  [.writeActOne, .readRequest 66, .writeActThree]

/-! ## Arithmetic of big-endian encoding -/

theorem length_natToBe (w n : Nat) : (natToBe w n).length = w := by
  induction w generalizing n with
  | zero => rfl
  | succ w ih => simp [natToBe, ih]

theorem bytesWF_natToBe (w n : Nat) : bytesWF (natToBe w n) := by
  induction w generalizing n with
  | zero => intro b hb; simp [natToBe] at hb
  | succ w ih =>
    intro b hb
    simp only [natToBe, List.mem_append, List.mem_singleton] at hb
    rcases hb with hb | hb
    · exact ih _ _ hb
    · subst hb; exact Nat.mod_lt _ (by omega)

theorem beNat_append_singleton (l : Bytes) (b : Nat) :
    beNat (l ++ [b]) = beNat l * 256 + b := by
  simp [beNat, List.foldl_append]

theorem natToBe_beNat (l : Bytes) (h : bytesWF l) :
    natToBe l.length (beNat l) = l := by
  induction l using List.reverseRecOn with
  | nil => rfl
  | append_singleton xs b ih =>
    have hb : b < 256 := h b (by simp)
    have hxs : bytesWF xs := fun a ha => h a (by simp [ha])
    have hdiv : (beNat xs * 256 + b) / 256 = beNat xs := by omega
    have hmod : (beNat xs * 256 + b) % 256 = b := by omega
    simp [beNat_append_singleton, natToBe, hdiv, hmod, ih hxs]

theorem beNat_lt (l : Bytes) (h : bytesWF l) : beNat l < 256 ^ l.length := by
  induction l using List.reverseRecOn with
  | nil => simp [beNat]
  | append_singleton xs b ih =>
    have hb : b < 256 := h b (by simp)
    have hxs : bytesWF xs := fun a ha => h a (by simp [ha])
    have := ih hxs
    simp only [beNat_append_singleton, List.length_append, List.length_singleton,
      pow_succ]
    calc beNat xs * 256 + b < (beNat xs + 1) * 256 := by omega
      _ ≤ 256 ^ xs.length * 256 := by
          exact Nat.mul_le_mul_right 256 (by omega)

theorem beNat_natToBe (w n : Nat) (h : n < 256 ^ w) :
    beNat (natToBe w n) = n := by
  induction w generalizing n with
  | zero =>
    interval_cases n
    rfl
  | succ w ih =>
    have hdiv : n / 256 < 256 ^ w := by
      rw [Nat.div_lt_iff_lt_mul (by omega)]
      calc n < 256 ^ (w + 1) := h
        _ = 256 ^ w * 256 := by ring
    simp only [natToBe, beNat_append_singleton, ih _ hdiv]
    omega

theorem bytesWF_take (l : Bytes) (n : Nat) (h : bytesWF l) :
    bytesWF (l.take n) :=
  fun b hb => h b (List.take_subset n l hb)

theorem bytesWF_drop (l : Bytes) (n : Nat) (h : bytesWF l) :
    bytesWF (l.drop n) :=
  fun b hb => h b (List.drop_subset n l hb)

/-! ## Decode-result elimination lemmas -/

theorem bind_ok {α β : Type} {x : DResult α} {f : α → Bytes → DResult β}
    {c : β} {r : Bytes} (h : DResult.bind x f = .ok c r) :
    ∃ a m, x = .ok a m ∧ f a m = .ok c r := by
  cases x with
  | ok a m => exact ⟨a, m, rfl, h⟩
  | err e => simp [DResult.bind] at h
  | panic => simp [DResult.bind] at h

theorem ubind_ok {α β : Type} {x : DResult α} {f : α → Bytes → DResult β}
    {c : β} {r : Bytes} (h : DResult.ubind x f = .ok c r) :
    ∃ a m, x = .ok a m ∧ f a m = .ok c r := by
  cases x with
  | ok a m => exact ⟨a, m, rfl, h⟩
  | err e => simp [DResult.ubind] at h
  | panic => simp [DResult.ubind] at h

theorem mapVal_ok {α β : Type} {f : α → β} {x : DResult α} {c : β}
    {r : Bytes} (h : x.mapVal f = .ok c r) :
    ∃ a, x = .ok a r ∧ c = f a := by
  cases x with
  | ok a m =>
    simp only [DResult.mapVal, DResult.ok.injEq] at h
    exact ⟨a, by simp [h.2], h.1.symm⟩
  | err e => simp [DResult.mapVal] at h
  | panic => simp [DResult.mapVal] at h

theorem orPanic_ok {α : Type} {x : DResult α} {c : α} {r : Bytes}
    (h : x.orPanic = .ok c r) : x = .ok c r := by
  cases x with
  | ok a m => exact h
  | err e => simp [DResult.orPanic] at h
  | panic => simp [DResult.orPanic] at h

theorem decodeBeInt_ok {w : Nat} {b : Bytes} {v : Nat} {r : Bytes}
    (h : decodeBeInt w b = .ok v r) :
    w ≤ b.length ∧ v = beNat (b.take w) ∧ r = b.drop w := by
  unfold decodeBeInt at h
  split at h
  · simp at h
  · next hlen =>
    simp only [DResult.ok.injEq] at h
    exact ⟨by omega, h.1.symm, h.2.symm⟩

theorem decodeFixedBytes_ok {w : Nat} {b : Bytes} {v : Bytes} {r : Bytes}
    (h : decodeFixedBytes w b = .ok v r) :
    w ≤ b.length ∧ v = b.take w ∧ r = b.drop w := by
  unfold decodeFixedBytes at h
  split at h
  · simp at h
  · next hlen =>
    simp only [DResult.ok.injEq] at h
    exact ⟨by omega, h.1.symm, h.2.symm⟩

/-- Core round-trip fact for the big-endian integer decoders. -/
theorem decodeBeInt_rt {w : Nat} {b : Bytes} {v : Nat} {r : Bytes}
    (hwf : bytesWF b) (h : decodeBeInt w b = .ok v r) :
    natToBe w v ++ r = b := by
  obtain ⟨hlen, hv, hr⟩ := decodeBeInt_ok h
  have htl : (b.take w).length = w := by simp [List.length_take]; omega
  subst hv hr
  calc natToBe w (beNat (b.take w)) ++ b.drop w
      = natToBe (b.take w).length (beNat (b.take w)) ++ b.drop w := by rw [htl]
    _ = b.take w ++ b.drop w := by rw [natToBe_beNat _ (bytesWF_take b w hwf)]
    _ = b := List.take_append_drop w b

theorem decodeBeInt_lt {w : Nat} {b : Bytes} {v : Nat} {r : Bytes}
    (hwf : bytesWF b) (h : decodeBeInt w b = .ok v r) : v < 256 ^ w := by
  obtain ⟨hlen, hv, hr⟩ := decodeBeInt_ok h
  have htl : (b.take w).length = w := by simp [List.length_take]; omega
  subst hv
  have := beNat_lt (b.take w) (bytesWF_take b w hwf)
  rwa [htl] at this

/-- Core round-trip fact for the raw fixed-width byte decoders. -/
theorem decodeFixedBytes_rt {w : Nat} {b : Bytes} {v : Bytes} {r : Bytes}
    (h : decodeFixedBytes w b = .ok v r) : v ++ r = b := by
  obtain ⟨hlen, hv, hr⟩ := decodeFixedBytes_ok h
  subst hv hr
  exact List.take_append_drop w b

theorem decodeFixedBytes_rem {w : Nat} {b : Bytes} {v : Bytes} {r : Bytes}
    (h : decodeFixedBytes w b = .ok v r) : r = b.drop w :=
  (decodeFixedBytes_ok h).2.2

/-! ## Per-primitive round-trip lemmas -/

theorem MessageTypeElement_elim {b : Bytes} {v : MessageTypeElement}
    {r : Bytes} (h : MessageTypeElement.from_bytes b = .ok v r) :
    decodeBeInt 2 b = .ok v.id r := by
  obtain ⟨n, hx, hv⟩ := mapVal_ok h
  subst hv
  exact hx

theorem MessageTypeElement_rt {b : Bytes} {v : MessageTypeElement} {r : Bytes}
    (hwf : bytesWF b) (h : MessageTypeElement.from_bytes b = .ok v r) :
    natToBe 2 v.id ++ r = b :=
  decodeBeInt_rt hwf (MessageTypeElement_elim h)

theorem MessageTypeElement_rem {b : Bytes} {v : MessageTypeElement} {r : Bytes}
    (h : MessageTypeElement.from_bytes b = .ok v r) : r = b.drop 2 :=
  (decodeBeInt_ok (MessageTypeElement_elim h)).2.2

theorem Wire1Byte_rt {b : Bytes} {v : Wire1Byte} {r : Bytes}
    (hwf : bytesWF b) (h : Wire1Byte.from_bytes b = .ok v r) :
    natToBe 1 v.value ++ r = b := by
  obtain ⟨n, hx, hv⟩ := mapVal_ok h
  subst hv
  exact decodeBeInt_rt hwf hx

theorem Wire1Byte_rem {b : Bytes} {v : Wire1Byte} {r : Bytes}
    (h : Wire1Byte.from_bytes b = .ok v r) : r = b.drop 1 := by
  obtain ⟨n, hx, hv⟩ := mapVal_ok h
  exact (decodeBeInt_ok hx).2.2

theorem WireU16Int_rt {b : Bytes} {v : WireU16Int} {r : Bytes}
    (hwf : bytesWF b) (h : WireU16Int.from_bytes b = .ok v r) :
    natToBe 2 v.value ++ r = b := by
  obtain ⟨n, hx, hv⟩ := mapVal_ok h
  subst hv
  exact decodeBeInt_rt hwf hx

theorem WireU16Int_rem {b : Bytes} {v : WireU16Int} {r : Bytes}
    (h : WireU16Int.from_bytes b = .ok v r) : r = b.drop 2 := by
  obtain ⟨n, hx, hv⟩ := mapVal_ok h
  exact (decodeBeInt_ok hx).2.2

theorem WireU32Int_rt {b : Bytes} {v : WireU32Int} {r : Bytes}
    (hwf : bytesWF b) (h : WireU32Int.from_bytes b = .ok v r) :
    natToBe 4 v.value ++ r = b := by
  obtain ⟨n, hx, hv⟩ := mapVal_ok h
  subst hv
  exact decodeBeInt_rt hwf hx

theorem WireU32Int_rem {b : Bytes} {v : WireU32Int} {r : Bytes}
    (h : WireU32Int.from_bytes b = .ok v r) : r = b.drop 4 := by
  obtain ⟨n, hx, hv⟩ := mapVal_ok h
  exact (decodeBeInt_ok hx).2.2

theorem WireU64Int_elim {b : Bytes} {v : WireU64Int} {r : Bytes}
    (h : WireU64Int.from_bytes b = .ok v r) :
    8 ≤ b.length ∧ v.value = beNat (b.take 8) ∧ r = b.drop 8 := by
  unfold WireU64Int.from_bytes at h
  split at h
  · simp at h
  · split at h
    · simp at h
    · next h4 h8 =>
      simp only [DResult.ok.injEq] at h
      refine ⟨by omega, ?_, h.2.symm⟩
      rw [← h.1]

theorem WireU64Int_rt {b : Bytes} {v : WireU64Int} {r : Bytes}
    (hwf : bytesWF b) (h : WireU64Int.from_bytes b = .ok v r) :
    natToBe 8 v.value ++ r = b := by
  obtain ⟨hlen, hv, hr⟩ := WireU64Int_elim h
  have : decodeBeInt 8 b = .ok v.value r := by
    unfold decodeBeInt
    rw [if_neg (by omega)]
    rw [hv, hr]
  exact decodeBeInt_rt hwf this

theorem WireU64Int_rem {b : Bytes} {v : WireU64Int} {r : Bytes}
    (h : WireU64Int.from_bytes b = .ok v r) : r = b.drop 8 :=
  (WireU64Int_elim h).2.2

theorem Wire3Bytes_rt {b : Bytes} {v : Wire3Bytes} {r : Bytes}
    (h : Wire3Bytes.from_bytes b = .ok v r) : v.value ++ r = b := by
  obtain ⟨a, hx, hv⟩ := mapVal_ok h
  subst hv
  exact decodeFixedBytes_rt hx

theorem Wire3Bytes_rem {b : Bytes} {v : Wire3Bytes} {r : Bytes}
    (h : Wire3Bytes.from_bytes b = .ok v r) : r = b.drop 3 := by
  obtain ⟨a, hx, hv⟩ := mapVal_ok h
  exact decodeFixedBytes_rem hx

theorem Bytes8Element_rt {b : Bytes} {v : Bytes8Element} {r : Bytes}
    (h : Bytes8Element.from_bytes b = .ok v r) : v.value ++ r = b := by
  obtain ⟨a, hx, hv⟩ := mapVal_ok h
  subst hv
  exact decodeFixedBytes_rt hx

theorem Wire32Bytes_rt {b : Bytes} {v : Wire32Bytes} {r : Bytes}
    (h : Wire32Bytes.from_bytes b = .ok v r) : v.value ++ r = b := by
  obtain ⟨a, hx, hv⟩ := mapVal_ok h
  subst hv
  exact decodeFixedBytes_rt (orPanic_ok hx)

theorem Wire32Bytes_rem {b : Bytes} {v : Wire32Bytes} {r : Bytes}
    (h : Wire32Bytes.from_bytes b = .ok v r) : r = b.drop 32 := by
  obtain ⟨a, hx, hv⟩ := mapVal_ok h
  exact decodeFixedBytes_rem (orPanic_ok hx)

theorem ChainHashElement_rt {b : Bytes} {v : ChainHashElement} {r : Bytes}
    (h : ChainHashElement.from_bytes b = .ok v r) : v.value ++ r = b := by
  obtain ⟨a, hx, hv⟩ := mapVal_ok h
  subst hv
  exact decodeFixedBytes_rt (orPanic_ok hx)

theorem ChainHashElement_rem {b : Bytes} {v : ChainHashElement} {r : Bytes}
    (h : ChainHashElement.from_bytes b = .ok v r) : r = b.drop 32 := by
  obtain ⟨a, hx, hv⟩ := mapVal_ok h
  exact decodeFixedBytes_rem (orPanic_ok hx)

theorem Wire33Bytes_rt {b : Bytes} {v : Wire33Bytes} {r : Bytes}
    (h : Wire33Bytes.from_bytes b = .ok v r) : v.value ++ r = b := by
  obtain ⟨a, hx, hv⟩ := mapVal_ok h
  subst hv
  exact decodeFixedBytes_rt (orPanic_ok hx)

theorem PointElement_rt {b : Bytes} {v : PointElement} {r : Bytes}
    (h : PointElement.from_bytes b = .ok v r) : v.value ++ r = b := by
  obtain ⟨a, hx, hv⟩ := mapVal_ok h
  subst hv
  exact decodeFixedBytes_rt (orPanic_ok hx)

theorem PointElement_rem {b : Bytes} {v : PointElement} {r : Bytes}
    (h : PointElement.from_bytes b = .ok v r) : r = b.drop 33 := by
  obtain ⟨a, hx, hv⟩ := mapVal_ok h
  exact decodeFixedBytes_rem (orPanic_ok hx)

theorem Wire64Bytes_rt {b : Bytes} {v : Wire64Bytes} {r : Bytes}
    (h : Wire64Bytes.from_bytes b = .ok v r) : v.value ++ r = b := by
  obtain ⟨a, hx, hv⟩ := mapVal_ok h
  subst hv
  exact decodeFixedBytes_rt hx

theorem SignatureElement_rt {b : Bytes} {v : SignatureElement} {r : Bytes}
    (h : SignatureElement.from_bytes b = .ok v r) : v.value ++ r = b := by
  obtain ⟨a, hx, hv⟩ := mapVal_ok h
  subst hv
  exact decodeFixedBytes_rt hx

theorem SignatureElement_rem {b : Bytes} {v : SignatureElement} {r : Bytes}
    (h : SignatureElement.from_bytes b = .ok v r) : r = b.drop 64 := by
  obtain ⟨a, hx, hv⟩ := mapVal_ok h
  exact decodeFixedBytes_rem hx

theorem NodeAliasElement_rt {b : Bytes} {v : NodeAliasElement} {r : Bytes}
    (h : NodeAliasElement.from_bytes b = .ok v r) :
    v.value.value ++ r = b := by
  obtain ⟨a, hx, hv⟩ := mapVal_ok h
  subst hv
  exact Wire32Bytes_rt hx

theorem RemainderTypeWire_elim {b : Bytes} {v : RemainderTypeWire} {r : Bytes}
    (h : RemainderTypeWire.from_bytes b = .ok v r) :
    v.value = b ∧ r = [] := by
  unfold RemainderTypeWire.from_bytes at h
  simp only [DResult.ok.injEq] at h
  exact ⟨by rw [← h.1], h.2.symm⟩

theorem RemainderTypeWire_rt {b : Bytes} {v : RemainderTypeWire} {r : Bytes}
    (h : RemainderTypeWire.from_bytes b = .ok v r) : v.value ++ r = b := by
  obtain ⟨hv, hr⟩ := RemainderTypeWire_elim h
  simp [hv, hr]

theorem WireU16SizedBytes_elim {b : Bytes} {v : WireU16SizedBytes} {r : Bytes}
    (h : WireU16SizedBytes.from_bytes b = .ok v r) :
    decodeBeInt 2 b = .ok v.num_bytes (b.drop 2) ∧
      v.num_bytes ≤ (b.drop 2).length ∧
      v.value = (b.drop 2).take v.num_bytes ∧
      r = (b.drop 2).drop v.num_bytes := by
  cases hx : decodeBeInt 2 b with
  | ok n rest =>
    have hrest : rest = b.drop 2 := (decodeBeInt_ok hx).2.2
    simp only [WireU16SizedBytes.from_bytes, hx] at h
    split at h
    · simp at h
    · next hlen =>
      simp only [DResult.ok.injEq] at h
      obtain ⟨hv, hr⟩ := h
      subst hrest
      have hnum : v.num_bytes = n := by rw [← hv]
      have hval : v.value = (b.drop 2).take n := by rw [← hv]
      refine ⟨by rw [hnum], by rw [hnum]; omega,
        by rw [hval, hnum], by rw [hnum, ← hr]⟩
  | err e =>
    simp only [WireU16SizedBytes.from_bytes, hx] at h
    exact DResult.noConfusion h
  | panic =>
    simp only [WireU16SizedBytes.from_bytes, hx] at h
    exact DResult.noConfusion h

theorem WireU16SizedBytes_len {b : Bytes} {v : WireU16SizedBytes} {r : Bytes}
    (hwf : bytesWF b) (h : WireU16SizedBytes.from_bytes b = .ok v r) :
    v.value.length = v.num_bytes ∧ v.num_bytes < 65536 := by
  obtain ⟨hx, hle, hv, hr⟩ := WireU16SizedBytes_elim h
  constructor
  · rw [hv, List.length_take]
    omega
  · exact decodeBeInt_lt hwf hx

theorem WireU16SizedBytes_rt {b : Bytes} {v : WireU16SizedBytes} {r : Bytes}
    (hwf : bytesWF b) (h : WireU16SizedBytes.from_bytes b = .ok v r) :
    natToBe 2 v.num_bytes ++ v.value ++ r = b := by
  obtain ⟨hx, hle, hv, hr⟩ := WireU16SizedBytes_elim h
  have h2 : natToBe 2 v.num_bytes ++ b.drop 2 = b := decodeBeInt_rt hwf hx
  rw [hv, hr, List.append_assoc, List.take_append_drop]
  exact h2

/-- The `new`-wrapped form actually used when a message re-encodes a sized
field from its raw value. -/
theorem WireU16SizedBytes_new_rt {b : Bytes} {v : WireU16SizedBytes}
    {r : Bytes} (hwf : bytesWF b)
    (h : WireU16SizedBytes.from_bytes b = .ok v r) :
    (WireU16SizedBytes.new v.value).to_bytes ++ r = b := by
  obtain ⟨hvl, hlt⟩ := WireU16SizedBytes_len hwf h
  have : (WireU16SizedBytes.new v.value).to_bytes
      = natToBe 2 v.num_bytes ++ v.value := by
    unfold WireU16SizedBytes.new WireU16SizedBytes.to_bytes
    rw [hvl, Nat.mod_eq_of_lt hlt]
  rw [this]
  exact WireU16SizedBytes_rt hwf h

theorem WireU16SizedBytes_rem {b : Bytes} {v : WireU16SizedBytes} {r : Bytes}
    (h : WireU16SizedBytes.from_bytes b = .ok v r) :
    r = b.drop (2 + v.num_bytes) := by
  obtain ⟨hx, hle, hv, hr⟩ := WireU16SizedBytes_elim h
  simp [hr, List.drop_drop, Nat.add_comm]

theorem IgnoredBytesElement_rt {b : Bytes} {v : IgnoredBytesElement}
    {r : Bytes} (hwf : bytesWF b)
    (h : IgnoredBytesElement.from_bytes b = .ok v r) :
    v.value.to_bytes ++ r = b := by
  obtain ⟨a, hx, hv⟩ := mapVal_ok h
  subst hv
  have := WireU16SizedBytes_rt hwf (orPanic_ok hx)
  simpa [WireU16SizedBytes.to_bytes] using this

theorem ShortChannelIDElement_elim {b : Bytes} {v : ShortChannelIDElement}
    {r : Bytes} (h : ShortChannelIDElement.from_bytes b = .ok v r) :
    8 ≤ b.length ∧ v.block_height = beNat (b.take 3) ∧
      v.tx_index = beNat ((b.drop 3).take 3) ∧
      v.output_index = beNat ((b.drop 6).take 2) ∧ r = b.drop 8 := by
  unfold ShortChannelIDElement.from_bytes at h
  split at h
  · simp at h
  · next hlen =>
    simp only [DResult.ok.injEq] at h
    obtain ⟨hv, hr⟩ := h
    exact ⟨by omega, by rw [← hv], by rw [← hv], by rw [← hv], hr.symm⟩

/-- Re-encoding the big-endian reading of a well-formed prefix reproduces that
prefix. -/
theorem natToBe_beNat_take (l : Bytes) (w : Nat) (hw : w ≤ l.length)
    (hwf : bytesWF l) : natToBe w (beNat (l.take w)) = l.take w := by
  have hl : (l.take w).length = w := by rw [List.length_take]; omega
  have := natToBe_beNat (l.take w) (bytesWF_take l w hwf)
  rwa [hl] at this

theorem ShortChannelIDElement_rt {b : Bytes} {v : ShortChannelIDElement}
    {r : Bytes} (hwf : bytesWF b)
    (h : ShortChannelIDElement.from_bytes b = .ok v r) :
    v.to_bytes ++ r = b := by
  obtain ⟨hlen, hb, ht, ho, hr⟩ := ShortChannelIDElement_elim h
  have e1 : natToBe 3 v.block_height = b.take 3 := by
    rw [hb]
    exact natToBe_beNat_take b 3 (by omega) hwf
  have e2 : natToBe 3 v.tx_index = (b.drop 3).take 3 := by
    rw [ht]
    exact natToBe_beNat_take (b.drop 3) 3 (by rw [List.length_drop]; omega)
      (bytesWF_drop b 3 hwf)
  have e3 : natToBe 2 v.output_index = (b.drop 6).take 2 := by
    rw [ho]
    exact natToBe_beNat_take (b.drop 6) 2 (by rw [List.length_drop]; omega)
      (bytesWF_drop b 6 hwf)
  have s1 : (b.drop 3).take 3 ++ b.drop 6 = b.drop 3 := by
    have hd : (b.drop 3).drop 3 = b.drop 6 := by rw [List.drop_drop]
    rw [← hd, List.take_append_drop]
  have s2 : (b.drop 6).take 2 ++ b.drop 8 = b.drop 6 := by
    have hd : (b.drop 6).drop 2 = b.drop 8 := by rw [List.drop_drop]
    rw [← hd, List.take_append_drop]
  have main : b.take 3 ++ ((b.drop 3).take 3 ++ ((b.drop 6).take 2 ++ b.drop 8))
      = b := by
    rw [s2, s1, List.take_append_drop]
  unfold ShortChannelIDElement.to_bytes
  rw [e1, e2, e3, hr]
  simpa [List.append_assoc] using main

theorem ShortChannelIDElement_rem {b : Bytes} {v : ShortChannelIDElement}
    {r : Bytes} (h : ShortChannelIDElement.from_bytes b = .ok v r) :
    r = b.drop 8 :=
  (ShortChannelIDElement_elim h).2.2.2.2

/-- `MessageType::from_int` only returns a variant whose discriminant is the
searched value. -/
theorem from_int_as_u16 {n : Nat} {t : MessageType}
    (h : MessageType.from_int n = some t) : t.as_u16 = n := by
  have := List.find?_some h
  simpa using this

/-! ## Message-level round-trip lemmas

For each message decoded through the dispatcher, re-encoding the decoded
value and appending the remainder reproduces the constant type tag followed
by everything after the input's own 2-byte tag. -/

theorem InitMessage_rt {b : Bytes} {m : InitMessage} {r : Bytes}
    (hwf : bytesWF b) (h : InitMessage.from_bytes b = .ok m r) :
    m.to_bytes ++ r = natToBe 2 MessageType.Init.as_u16 ++ b.drop 2 := by
  unfold InitMessage.from_bytes at h
  obtain ⟨mt, d1, h1, h⟩ := bind_ok h
  obtain ⟨gf, d2, h2, h⟩ := bind_ok h
  obtain ⟨lf, d3, h3, h⟩ := bind_ok h
  obtain ⟨tlv, d4, h4, h⟩ := bind_ok h
  simp only [DResult.ok.injEq] at h
  obtain ⟨hm, hr⟩ := h
  have hd1 : d1 = b.drop 2 := MessageTypeElement_rem h1
  have hwf1 : bytesWF d1 := hd1 ▸ bytesWF_drop b 2 hwf
  have hd2 : d2 = d1.drop (2 + gf.num_bytes) := WireU16SizedBytes_rem h2
  have hwf2 : bytesWF d2 := hd2 ▸ bytesWF_drop d1 _ hwf1
  have e2 : (WireU16SizedBytes.new gf.value).to_bytes ++ d2 = d1 :=
    WireU16SizedBytes_new_rt hwf1 h2
  have e3 : (WireU16SizedBytes.new lf.value).to_bytes ++ d3 = d2 :=
    WireU16SizedBytes_new_rt hwf2 h3
  have e4 : tlv.value ++ d4 = d3 := RemainderTypeWire_rt h4
  subst hm hr hd1
  show (natToBe 2 MessageType.Init.as_u16 ++
      (WireU16SizedBytes.new gf.value).to_bytes ++
      (WireU16SizedBytes.new lf.value).to_bytes ++ tlv.value) ++ d4 =
    natToBe 2 MessageType.Init.as_u16 ++ b.drop 2
  simp only [List.append_assoc]
  rw [e4, e3, e2]

theorem PingMessage_rt {b : Bytes} {m : PingMessage} {r : Bytes}
    (hwf : bytesWF b) (h : PingMessage.from_bytes b = .ok m r) :
    m.to_bytes ++ r = natToBe 2 MessageType.Ping.as_u16 ++ b.drop 2 := by
  unfold PingMessage.from_bytes at h
  obtain ⟨mt, d1, h1, h⟩ := bind_ok h
  obtain ⟨np, d2, h2, h⟩ := bind_ok h
  obtain ⟨ig, d3, h3, h⟩ := bind_ok h
  simp only [DResult.ok.injEq] at h
  obtain ⟨hm, hr⟩ := h
  have hd1 : d1 = b.drop 2 := MessageTypeElement_rem h1
  have hwf1 : bytesWF d1 := hd1 ▸ bytesWF_drop b 2 hwf
  have hd2 : d2 = d1.drop 2 := WireU16Int_rem h2
  have hwf2 : bytesWF d2 := hd2 ▸ bytesWF_drop d1 2 hwf1
  have e2 : natToBe 2 np.value ++ d2 = d1 := WireU16Int_rt hwf1 h2
  have e3 : (WireU16SizedBytes.new ig.value).to_bytes ++ d3 = d2 :=
    WireU16SizedBytes_new_rt hwf2 h3
  subst hm hr hd1
  show (natToBe 2 MessageType.Ping.as_u16 ++ natToBe 2 np.value ++
      (WireU16SizedBytes.new ig.value).to_bytes) ++ d3 =
    natToBe 2 MessageType.Ping.as_u16 ++ b.drop 2
  simp only [List.append_assoc]
  rw [e3, e2]

theorem PongMessage_rt {b : Bytes} {m : PongMessage} {r : Bytes}
    (hwf : bytesWF b) (h : PongMessage.from_bytes b = .ok m r) :
    m.to_bytes ++ r = natToBe 2 MessageType.Pong.as_u16 ++ b.drop 2 := by
  unfold PongMessage.from_bytes at h
  obtain ⟨mt, d1, h1, h⟩ := bind_ok h
  obtain ⟨ig, d2, h2, h⟩ := bind_ok h
  simp only [DResult.ok.injEq] at h
  obtain ⟨hm, hr⟩ := h
  have hd1 : d1 = b.drop 2 := MessageTypeElement_rem h1
  have hwf1 : bytesWF d1 := hd1 ▸ bytesWF_drop b 2 hwf
  have e2 : (WireU16SizedBytes.new ig.value).to_bytes ++ d2 = d1 :=
    WireU16SizedBytes_new_rt hwf1 h2
  subst hm hr hd1
  show (natToBe 2 MessageType.Pong.as_u16 ++
      (WireU16SizedBytes.new ig.value).to_bytes) ++ d2 =
    natToBe 2 MessageType.Pong.as_u16 ++ b.drop 2
  simp only [List.append_assoc]
  rw [e2]

theorem GossipTimestampFilterMessage_rt {b : Bytes}
    {m : GossipTimestampFilterMessage} {r : Bytes} (hwf : bytesWF b)
    (h : GossipTimestampFilterMessage.from_bytes b = .ok m r) :
    m.to_bytes ++ r =
      natToBe 2 MessageType.GossipTimestampFilter.as_u16 ++ b.drop 2 := by
  unfold GossipTimestampFilterMessage.from_bytes at h
  obtain ⟨mt, d1, h1, h⟩ := bind_ok h
  obtain ⟨ch, d2, h2, h⟩ := bind_ok h
  obtain ⟨ft, d3, h3, h⟩ := bind_ok h
  obtain ⟨tr, d4, h4, h⟩ := bind_ok h
  simp only [DResult.ok.injEq] at h
  obtain ⟨hm, hr⟩ := h
  have hd1 : d1 = b.drop 2 := MessageTypeElement_rem h1
  have hwf1 : bytesWF d1 := hd1 ▸ bytesWF_drop b 2 hwf
  have hd2 : d2 = d1.drop 32 := ChainHashElement_rem h2
  have hwf2 : bytesWF d2 := hd2 ▸ bytesWF_drop d1 32 hwf1
  have hd3 : d3 = d2.drop 4 := WireU32Int_rem h3
  have hwf3 : bytesWF d3 := hd3 ▸ bytesWF_drop d2 4 hwf2
  have e2 : ch.value ++ d2 = d1 := ChainHashElement_rt h2
  have e3 : natToBe 4 ft.value ++ d3 = d2 := WireU32Int_rt hwf2 h3
  have e4 : natToBe 4 tr.value ++ d4 = d3 := WireU32Int_rt hwf3 h4
  subst hm hr hd1
  show (natToBe 2 MessageType.GossipTimestampFilter.as_u16 ++ ch.value ++
      natToBe 4 ft.value ++ natToBe 4 tr.value) ++ d4 =
    natToBe 2 MessageType.GossipTimestampFilter.as_u16 ++ b.drop 2
  simp only [List.append_assoc]
  rw [e4, e3, e2]

theorem QueryChannelRangeMessage_rt {b : Bytes}
    {m : QueryChannelRangeMessage} {r : Bytes} (hwf : bytesWF b)
    (h : QueryChannelRangeMessage.from_bytes b = .ok m r) :
    m.to_bytes ++ r =
      natToBe 2 MessageType.QueryChannelRange.as_u16 ++ b.drop 2 := by
  unfold QueryChannelRangeMessage.from_bytes at h
  obtain ⟨mt, d1, h1, h⟩ := bind_ok h
  obtain ⟨ch, d2, h2, h⟩ := bind_ok h
  obtain ⟨fb, d3, h3, h⟩ := bind_ok h
  obtain ⟨nb, d4, h4, h⟩ := bind_ok h
  obtain ⟨tlvs, d5, h5, h⟩ := bind_ok h
  simp only [DResult.ok.injEq] at h
  obtain ⟨hm, hr⟩ := h
  have hd1 : d1 = b.drop 2 := MessageTypeElement_rem h1
  have hwf1 : bytesWF d1 := hd1 ▸ bytesWF_drop b 2 hwf
  have hd2 : d2 = d1.drop 32 := ChainHashElement_rem h2
  have hwf2 : bytesWF d2 := hd2 ▸ bytesWF_drop d1 32 hwf1
  have hd3 : d3 = d2.drop 4 := WireU32Int_rem h3
  have hwf3 : bytesWF d3 := hd3 ▸ bytesWF_drop d2 4 hwf2
  have e2 : ch.value ++ d2 = d1 := ChainHashElement_rt h2
  have e3 : natToBe 4 fb.value ++ d3 = d2 := WireU32Int_rt hwf2 h3
  have e4 : natToBe 4 nb.value ++ d4 = d3 := WireU32Int_rt hwf3 h4
  have e5 : tlvs.value ++ d5 = d4 := RemainderTypeWire_rt h5
  subst hm hr hd1
  show (natToBe 2 MessageType.QueryChannelRange.as_u16 ++ ch.value ++
      natToBe 4 fb.value ++ natToBe 4 nb.value ++ tlvs.value) ++ d5 =
    natToBe 2 MessageType.QueryChannelRange.as_u16 ++ b.drop 2
  simp only [List.append_assoc]
  rw [e5, e4, e3, e2]

theorem ReplyChannelRangeMessage_rt {b : Bytes}
    {m : ReplyChannelRangeMessage} {r : Bytes} (hwf : bytesWF b)
    (h : ReplyChannelRangeMessage.from_bytes b = .ok m r) :
    m.to_bytes ++ r =
      natToBe 2 MessageType.ReplyChannelRange.as_u16 ++ b.drop 2 := by
  unfold ReplyChannelRangeMessage.from_bytes at h
  obtain ⟨mt, d1, h1, h⟩ := bind_ok h
  obtain ⟨ch, d2, h2, h⟩ := bind_ok h
  obtain ⟨fb, d3, h3, h⟩ := bind_ok h
  obtain ⟨nb, d4, h4, h⟩ := bind_ok h
  obtain ⟨sc, d5, h5, h⟩ := bind_ok h
  obtain ⟨ids, d6, h6, h⟩ := bind_ok h
  obtain ⟨tlvs, d7, h7, h⟩ := bind_ok h
  simp only [DResult.ok.injEq] at h
  obtain ⟨hm, hr⟩ := h
  have hd1 : d1 = b.drop 2 := MessageTypeElement_rem h1
  have hwf1 : bytesWF d1 := hd1 ▸ bytesWF_drop b 2 hwf
  have hd2 : d2 = d1.drop 32 := ChainHashElement_rem h2
  have hwf2 : bytesWF d2 := hd2 ▸ bytesWF_drop d1 32 hwf1
  have hd3 : d3 = d2.drop 4 := WireU32Int_rem h3
  have hwf3 : bytesWF d3 := hd3 ▸ bytesWF_drop d2 4 hwf2
  have hd4 : d4 = d3.drop 4 := WireU32Int_rem h4
  have hwf4 : bytesWF d4 := hd4 ▸ bytesWF_drop d3 4 hwf3
  have hd5 : d5 = d4.drop 1 := Wire1Byte_rem h5
  have hwf5 : bytesWF d5 := hd5 ▸ bytesWF_drop d4 1 hwf4
  have e2 : ch.value ++ d2 = d1 := ChainHashElement_rt h2
  have e3 : natToBe 4 fb.value ++ d3 = d2 := WireU32Int_rt hwf2 h3
  have e4 : natToBe 4 nb.value ++ d4 = d3 := WireU32Int_rt hwf3 h4
  have e5 : natToBe 1 sc.value ++ d5 = d4 := Wire1Byte_rt hwf4 h5
  have e6 : (WireU16SizedBytes.new ids.value).to_bytes ++ d6 = d5 :=
    WireU16SizedBytes_new_rt hwf5 h6
  have e7 : tlvs.value ++ d7 = d6 := RemainderTypeWire_rt h7
  subst hm hr hd1
  show (natToBe 2 MessageType.ReplyChannelRange.as_u16 ++ ch.value ++
      natToBe 4 fb.value ++ natToBe 4 nb.value ++ natToBe 1 sc.value ++
      (WireU16SizedBytes.new ids.value).to_bytes ++ tlvs.value) ++ d7 =
    natToBe 2 MessageType.ReplyChannelRange.as_u16 ++ b.drop 2
  simp only [List.append_assoc]
  rw [e7, e6, e5, e4, e3, e2]

theorem ChannelAnnouncementMessage_rt {b : Bytes}
    {m : ChannelAnnouncementMessage} {r : Bytes} (hwf : bytesWF b)
    (h : ChannelAnnouncementMessage.from_bytes b = .ok m r) :
    m.to_bytes ++ r =
      natToBe 2 MessageType.ChannelAnnouncement.as_u16 ++ b.drop 2 := by
  unfold ChannelAnnouncementMessage.from_bytes at h
  obtain ⟨mt, d1, h1, h⟩ := bind_ok h
  obtain ⟨ns1, d2, h2, h⟩ := bind_ok h
  obtain ⟨ns2, d3, h3, h⟩ := bind_ok h
  obtain ⟨bs1, d4, h4, h⟩ := bind_ok h
  obtain ⟨bs2, d5, h5, h⟩ := bind_ok h
  obtain ⟨feats, d6, h6, h⟩ := bind_ok h
  obtain ⟨ch, d7, h7, h⟩ := bind_ok h
  obtain ⟨scid, d8, h8, h⟩ := bind_ok h
  obtain ⟨n1, d9, h9, h⟩ := bind_ok h
  obtain ⟨n2, d10, h10, h⟩ := bind_ok h
  obtain ⟨k1, d11, h11, h⟩ := bind_ok h
  obtain ⟨k2, d12, h12, h⟩ := bind_ok h
  simp only [DResult.ok.injEq] at h
  obtain ⟨hm, hr⟩ := h
  have hd1 : d1 = b.drop 2 := MessageTypeElement_rem h1
  have hwf1 : bytesWF d1 := hd1 ▸ bytesWF_drop b 2 hwf
  have hd2 : d2 = d1.drop 64 := SignatureElement_rem h2
  have hwf2 : bytesWF d2 := hd2 ▸ bytesWF_drop d1 64 hwf1
  have hd3 : d3 = d2.drop 64 := SignatureElement_rem h3
  have hwf3 : bytesWF d3 := hd3 ▸ bytesWF_drop d2 64 hwf2
  have hd4 : d4 = d3.drop 64 := SignatureElement_rem h4
  have hwf4 : bytesWF d4 := hd4 ▸ bytesWF_drop d3 64 hwf3
  have hd5 : d5 = d4.drop 64 := SignatureElement_rem h5
  have hwf5 : bytesWF d5 := hd5 ▸ bytesWF_drop d4 64 hwf4
  have hd6 : d6 = d5.drop (2 + feats.num_bytes) := WireU16SizedBytes_rem h6
  have hwf6 : bytesWF d6 := hd6 ▸ bytesWF_drop d5 _ hwf5
  have hd7 : d7 = d6.drop 32 := ChainHashElement_rem h7
  have hwf7 : bytesWF d7 := hd7 ▸ bytesWF_drop d6 32 hwf6
  have e2 : ns1.value ++ d2 = d1 := SignatureElement_rt h2
  have e3 : ns2.value ++ d3 = d2 := SignatureElement_rt h3
  have e4 : bs1.value ++ d4 = d3 := SignatureElement_rt h4
  have e5 : bs2.value ++ d5 = d4 := SignatureElement_rt h5
  have e6 : (WireU16SizedBytes.new feats.value).to_bytes ++ d6 = d5 :=
    WireU16SizedBytes_new_rt hwf5 h6
  have e7 : ch.value ++ d7 = d6 := ChainHashElement_rt h7
  have e8 : scid.to_bytes ++ d8 = d7 := ShortChannelIDElement_rt hwf7 h8
  have e9 : n1.value ++ d9 = d8 := PointElement_rt h9
  have e10 : n2.value ++ d10 = d9 := PointElement_rt h10
  have e11 : k1.value ++ d11 = d10 := PointElement_rt h11
  have e12 : k2.value ++ d12 = d11 := PointElement_rt h12
  subst hm hr hd1
  show (natToBe 2 MessageType.ChannelAnnouncement.as_u16 ++ ns1.value ++
      ns2.value ++ bs1.value ++ bs2.value ++
      (WireU16SizedBytes.new feats.value).to_bytes ++ ch.value ++
      scid.to_bytes ++ n1.value ++ n2.value ++ k1.value ++ k2.value) ++ d12 =
    natToBe 2 MessageType.ChannelAnnouncement.as_u16 ++ b.drop 2
  simp only [List.append_assoc]
  rw [e12, e11, e10, e9, e8, e7, e6, e5, e4, e3, e2]

theorem ChannelUpdateMessage_rt {b : Bytes} {m : ChannelUpdateMessage}
    {r : Bytes} (hwf : bytesWF b)
    (h : ChannelUpdateMessage.from_bytes b = .ok m r) :
    m.to_bytes ++ r =
      natToBe 2 MessageType.ChannelUpdate.as_u16 ++ b.drop 2 := by
  unfold ChannelUpdateMessage.from_bytes at h
  obtain ⟨mt, d1, h1, h⟩ := bind_ok h
  obtain ⟨sig, d2, h2, h⟩ := ubind_ok h
  obtain ⟨ch, d3, h3, h⟩ := ubind_ok h
  obtain ⟨scid, d4, h4, h⟩ := ubind_ok h
  obtain ⟨ts, d5, h5, h⟩ := ubind_ok h
  obtain ⟨mf, d6, h6, h⟩ := ubind_ok h
  obtain ⟨cf, d7, h7, h⟩ := ubind_ok h
  obtain ⟨cltv, d8, h8, h⟩ := ubind_ok h
  obtain ⟨hmin, d9, h9, h⟩ := ubind_ok h
  obtain ⟨fee, d10, h10, h⟩ := ubind_ok h
  obtain ⟨prop, d11, h11, h⟩ := ubind_ok h
  obtain ⟨hmax, d12, h12, h⟩ := ubind_ok h
  simp only [DResult.ok.injEq] at h
  obtain ⟨hm, hr⟩ := h
  have hd1 : d1 = b.drop 2 := MessageTypeElement_rem h1
  have hwf1 : bytesWF d1 := hd1 ▸ bytesWF_drop b 2 hwf
  have hd2 : d2 = d1.drop 64 := SignatureElement_rem h2
  have hwf2 : bytesWF d2 := hd2 ▸ bytesWF_drop d1 64 hwf1
  have hd3 : d3 = d2.drop 32 := ChainHashElement_rem h3
  have hwf3 : bytesWF d3 := hd3 ▸ bytesWF_drop d2 32 hwf2
  have hd4 : d4 = d3.drop 8 := ShortChannelIDElement_rem h4
  have hwf4 : bytesWF d4 := hd4 ▸ bytesWF_drop d3 8 hwf3
  have hd5 : d5 = d4.drop 4 := WireU32Int_rem h5
  have hwf5 : bytesWF d5 := hd5 ▸ bytesWF_drop d4 4 hwf4
  have hd6 : d6 = d5.drop 1 := Wire1Byte_rem h6
  have hwf6 : bytesWF d6 := hd6 ▸ bytesWF_drop d5 1 hwf5
  have hd7 : d7 = d6.drop 1 := Wire1Byte_rem h7
  have hwf7 : bytesWF d7 := hd7 ▸ bytesWF_drop d6 1 hwf6
  have hd8 : d8 = d7.drop 2 := WireU16Int_rem h8
  have hwf8 : bytesWF d8 := hd8 ▸ bytesWF_drop d7 2 hwf7
  have hd9 : d9 = d8.drop 8 := WireU64Int_rem h9
  have hwf9 : bytesWF d9 := hd9 ▸ bytesWF_drop d8 8 hwf8
  have hd10 : d10 = d9.drop 4 := WireU32Int_rem h10
  have hwf10 : bytesWF d10 := hd10 ▸ bytesWF_drop d9 4 hwf9
  have hd11 : d11 = d10.drop 4 := WireU32Int_rem h11
  have hwf11 : bytesWF d11 := hd11 ▸ bytesWF_drop d10 4 hwf10
  have e2 : sig.value ++ d2 = d1 := SignatureElement_rt h2
  have e3 : ch.value ++ d3 = d2 := ChainHashElement_rt h3
  have e4 : scid.to_bytes ++ d4 = d3 := ShortChannelIDElement_rt hwf3 h4
  have e5 : natToBe 4 ts.value ++ d5 = d4 := WireU32Int_rt hwf4 h5
  have e6 : natToBe 1 mf.value ++ d6 = d5 := Wire1Byte_rt hwf5 h6
  have e7 : natToBe 1 cf.value ++ d7 = d6 := Wire1Byte_rt hwf6 h7
  have e8 : natToBe 2 cltv.value ++ d8 = d7 := WireU16Int_rt hwf7 h8
  have e9 : natToBe 8 hmin.value ++ d9 = d8 := WireU64Int_rt hwf8 h9
  have e10 : natToBe 4 fee.value ++ d10 = d9 := WireU32Int_rt hwf9 h10
  have e11 : natToBe 4 prop.value ++ d11 = d10 := WireU32Int_rt hwf10 h11
  have e12 : natToBe 8 hmax.value ++ d12 = d11 := WireU64Int_rt hwf11 h12
  subst hm hr hd1
  show (natToBe 2 MessageType.ChannelUpdate.as_u16 ++ sig.value ++ ch.value ++
      scid.to_bytes ++ natToBe 4 ts.value ++ natToBe 1 mf.value ++
      natToBe 1 cf.value ++ natToBe 2 cltv.value ++ natToBe 8 hmin.value ++
      natToBe 4 fee.value ++ natToBe 4 prop.value ++
      natToBe 8 hmax.value) ++ d12 =
    natToBe 2 MessageType.ChannelUpdate.as_u16 ++ b.drop 2
  simp only [List.append_assoc]
  rw [e12, e11, e10, e9, e8, e7, e6, e5, e4, e3, e2]

/-- Round trip through the dispatcher, for every container except the
node-announcement variant. -/
theorem MessageDecoder_rt {b : Bytes} {c : MessageContainer} {r : Bytes}
    (hwf : bytesWF b) (hna : c.isNodeAnnouncement = false)
    (h : MessageDecoder.from_bytes b = .ok c r) :
    c.to_bytes ++ r = b := by
  cases hmt : MessageTypeElement.from_bytes b with
  | err e =>
    simp only [MessageDecoder.from_bytes, hmt] at h
    exact MDResult.noConfusion h
  | panic =>
    simp only [MessageDecoder.from_bytes, hmt] at h
    exact MDResult.noConfusion h
  | ok mt d =>
    simp only [MessageDecoder.from_bytes, hmt] at h
    cases hfi : MessageType.from_int mt.id with
    | none =>
      simp only [hfi] at h
      exact MDResult.noConfusion h
    | some t =>
      simp only [hfi] at h
      have htag : t.as_u16 = mt.id := from_int_as_u16 hfi
      have hd : d = b.drop 2 := MessageTypeElement_rem hmt
      have hpre : natToBe 2 mt.id ++ b.drop 2 = b := by
        have := MessageTypeElement_rt hwf hmt
        rwa [hd] at this
      cases t
      case Init =>
        cases hp : InitMessage.from_bytes b with
        | ok m dm =>
          simp only [hp, liftMsg, MDResult.ok.injEq] at h
          obtain ⟨hc, hr⟩ := h
          subst hc hr
          show m.to_bytes ++ dm = b
          rw [InitMessage_rt hwf hp, htag]
          exact hpre
        | err e =>
          simp only [hp, liftMsg] at h
          exact MDResult.noConfusion h
        | panic =>
          simp only [hp, liftMsg] at h
          exact MDResult.noConfusion h
      case Ping =>
        cases hp : PingMessage.from_bytes b with
        | ok m dm =>
          simp only [hp, liftMsg, MDResult.ok.injEq] at h
          obtain ⟨hc, hr⟩ := h
          subst hc hr
          show m.to_bytes ++ dm = b
          rw [PingMessage_rt hwf hp, htag]
          exact hpre
        | err e =>
          simp only [hp, liftMsg] at h
          exact MDResult.noConfusion h
        | panic =>
          simp only [hp, liftMsg] at h
          exact MDResult.noConfusion h
      case Pong =>
        cases hp : PongMessage.from_bytes b with
        | ok m dm =>
          simp only [hp, liftMsg, MDResult.ok.injEq] at h
          obtain ⟨hc, hr⟩ := h
          subst hc hr
          show m.to_bytes ++ dm = b
          rw [PongMessage_rt hwf hp, htag]
          exact hpre
        | err e =>
          simp only [hp, liftMsg] at h
          exact MDResult.noConfusion h
        | panic =>
          simp only [hp, liftMsg] at h
          exact MDResult.noConfusion h
      case ChannelAnnouncement =>
        cases hp : ChannelAnnouncementMessage.from_bytes b with
        | ok m dm =>
          simp only [hp, liftMsg, MDResult.ok.injEq] at h
          obtain ⟨hc, hr⟩ := h
          subst hc hr
          show m.to_bytes ++ dm = b
          rw [ChannelAnnouncementMessage_rt hwf hp, htag]
          exact hpre
        | err e =>
          simp only [hp, liftMsg] at h
          exact MDResult.noConfusion h
        | panic =>
          simp only [hp, liftMsg] at h
          exact MDResult.noConfusion h
      case NodeAnnouncement =>
        cases hp : NodeAnnouncementMessage.from_bytes b with
        | ok m dm =>
          simp only [hp, liftMsg, MDResult.ok.injEq] at h
          obtain ⟨hc, hr⟩ := h
          subst hc
          simp [MessageContainer.isNodeAnnouncement] at hna
        | err e =>
          simp only [hp, liftMsg] at h
          exact MDResult.noConfusion h
        | panic =>
          simp only [hp, liftMsg] at h
          exact MDResult.noConfusion h
      case GossipTimestampFilter =>
        cases hp : GossipTimestampFilterMessage.from_bytes b with
        | ok m dm =>
          simp only [hp, liftMsg, MDResult.ok.injEq] at h
          obtain ⟨hc, hr⟩ := h
          subst hc hr
          show m.to_bytes ++ dm = b
          rw [GossipTimestampFilterMessage_rt hwf hp, htag]
          exact hpre
        | err e =>
          simp only [hp, liftMsg] at h
          exact MDResult.noConfusion h
        | panic =>
          simp only [hp, liftMsg] at h
          exact MDResult.noConfusion h
      case QueryChannelRange =>
        cases hp : QueryChannelRangeMessage.from_bytes b with
        | ok m dm =>
          simp only [hp, liftMsg, MDResult.ok.injEq] at h
          obtain ⟨hc, hr⟩ := h
          subst hc hr
          show m.to_bytes ++ dm = b
          rw [QueryChannelRangeMessage_rt hwf hp, htag]
          exact hpre
        | err e =>
          simp only [hp, liftMsg] at h
          exact MDResult.noConfusion h
        | panic =>
          simp only [hp, liftMsg] at h
          exact MDResult.noConfusion h
      case ReplyChannelRange =>
        cases hp : ReplyChannelRangeMessage.from_bytes b with
        | ok m dm =>
          simp only [hp, liftMsg, MDResult.ok.injEq] at h
          obtain ⟨hc, hr⟩ := h
          subst hc hr
          show m.to_bytes ++ dm = b
          rw [ReplyChannelRangeMessage_rt hwf hp, htag]
          exact hpre
        | err e =>
          simp only [hp, liftMsg] at h
          exact MDResult.noConfusion h
        | panic =>
          simp only [hp, liftMsg] at h
          exact MDResult.noConfusion h
      case ChannelUpdate =>
        cases hp : ChannelUpdateMessage.from_bytes b with
        | ok m dm =>
          simp only [hp, liftMsg, MDResult.ok.injEq] at h
          obtain ⟨hc, hr⟩ := h
          subst hc hr
          show m.to_bytes ++ dm = b
          rw [ChannelUpdateMessage_rt hwf hp, htag]
          exact hpre
        | err e =>
          simp only [hp, liftMsg] at h
          exact MDResult.noConfusion h
        | panic =>
          simp only [hp, liftMsg] at h
          exact MDResult.noConfusion h
      all_goals
        simp only [liftMsg, UnknownMessage.from_bytes, DResult.bind, hmt,
          MDResult.ok.injEq] at h
      all_goals obtain ⟨hc, hr⟩ := h
      all_goals subst hc hr
      all_goals
        show natToBe 2 mt.id ++ d ++ [] = b
      all_goals rw [List.append_nil, hd]
      all_goals exact hpre

/-! ## Peer-level helper lemmas -/

theorem keyInsert_mem {k k' : Bytes} {l : List Bytes}
    (h : k ∈ keyInsert k' l) : k ∈ l ∨ k = k' := by
  unfold keyInsert at h
  split at h
  · exact Or.inl h
  · rcases List.mem_cons.mp h with h | h
    · exact Or.inr h
    · exact Or.inl h

theorem mapLookup_insert {κ ν : Type} [DecidableEq κ] (m : List (κ × ν))
    (k : κ) (v : ν) : mapLookup (mapInsert k v m) k = some v := by
  unfold mapLookup mapInsert
  rw [List.find?_cons_of_pos _ (by simp)]
  rfl

/-- The ping branch of dispatch, shared shape: one pong back on the same
connection, built from `num_pong_bytes` alone. -/
theorem dispatch_ping_eq (st : MiniPeer) (ping : PingMessage) (key : Bytes)
    (dc : Bool) (cs : ConnectStep) (cso : Bool)
    (hkey : key ∈ st.node_connections) :
    st.handle_inbound_message (.Ping ping) key dc true cs cso =
      .ok st [(key, .Pong (PongMessage.from_ping ping))] := by
  simp only [MiniPeer.handle_inbound_message, hkey, if_true]

/-! ## Claims -/

/-- C1 counterexample: the `node_addresses` primitive violates the round-trip
law.  The input `[0, 1, 5]` (inner payload a single DNS discriminator with an
empty hostname) decodes successfully, but re-encoding the decoded value
yields `[0, 0]`, not the original bytes. -/
theorem node_addresses_round_trip_fails :
    NodeAddressesElement.from_bytes [0, 1, 5] =
      .ok ⟨[], [], [], [], []⟩ [] ∧
    NodeAddressesElement.to_bytes ⟨[], [], [], [], []⟩ ++ ([] : Bytes) ≠
      [0, 1, 5] := by
  decide

/-- C1 (amended): the round-trip law `encode(decode(b).value) ++ remainder
= b` holds for every wire primitive except `node_addresses`, and for every
message decoded by the dispatcher except the node-announcement variant
(which embeds `node_addresses`), on well-formed byte strings. -/
theorem round_trip_universal :
    ((∀ b v r, bytesWF b → MessageTypeElement.from_bytes b = .ok v r →
        v.to_bytes ++ r = b) ∧
      (∀ b v r, bytesWF b → Wire1Byte.from_bytes b = .ok v r →
        v.to_bytes ++ r = b) ∧
      (∀ b v r, bytesWF b → WireU16Int.from_bytes b = .ok v r →
        v.to_bytes ++ r = b) ∧
      (∀ b v r, bytesWF b → WireU32Int.from_bytes b = .ok v r →
        v.to_bytes ++ r = b) ∧
      (∀ b v r, bytesWF b → WireU64Int.from_bytes b = .ok v r →
        v.to_bytes ++ r = b) ∧
      (∀ b v r, bytesWF b → Wire3Bytes.from_bytes b = .ok v r →
        v.to_bytes ++ r = b) ∧
      (∀ b v r, bytesWF b → Bytes8Element.from_bytes b = .ok v r →
        v.to_bytes ++ r = b) ∧
      (∀ b v r, bytesWF b → Wire32Bytes.from_bytes b = .ok v r →
        v.to_bytes ++ r = b) ∧
      (∀ b v r, bytesWF b → Wire33Bytes.from_bytes b = .ok v r →
        v.to_bytes ++ r = b) ∧
      (∀ b v r, bytesWF b → Wire64Bytes.from_bytes b = .ok v r →
        v.to_bytes ++ r = b) ∧
      (∀ b v r, bytesWF b → SignatureElement.from_bytes b = .ok v r →
        v.to_bytes ++ r = b) ∧
      (∀ b v r, bytesWF b → ChainHashElement.from_bytes b = .ok v r →
        v.to_bytes ++ r = b) ∧
      (∀ b v r, bytesWF b → PointElement.from_bytes b = .ok v r →
        v.to_bytes ++ r = b) ∧
      (∀ b v r, bytesWF b → NodeAliasElement.from_bytes b = .ok v r →
        v.to_bytes ++ r = b) ∧
      (∀ b v r, bytesWF b → IgnoredBytesElement.from_bytes b = .ok v r →
        v.to_bytes ++ r = b) ∧
      (∀ b v r, bytesWF b → WireU16SizedBytes.from_bytes b = .ok v r →
        v.to_bytes ++ r = b) ∧
      (∀ b v r, bytesWF b → RemainderTypeWire.from_bytes b = .ok v r →
        v.to_bytes ++ r = b) ∧
      (∀ b v r, bytesWF b → ShortChannelIDElement.from_bytes b = .ok v r →
        v.to_bytes ++ r = b)) ∧
    (∀ b c r, bytesWF b → MessageContainer.isNodeAnnouncement c = false →
      MessageDecoder.from_bytes b = .ok c r → c.to_bytes ++ r = b) := by
  refine ⟨⟨?_, ?_, ?_, ?_, ?_, ?_, ?_, ?_, ?_, ?_, ?_, ?_, ?_, ?_, ?_, ?_,
    ?_, ?_⟩, ?_⟩
  · exact fun b v r hwf h => MessageTypeElement_rt hwf h
  · exact fun b v r hwf h => Wire1Byte_rt hwf h
  · exact fun b v r hwf h => WireU16Int_rt hwf h
  · exact fun b v r hwf h => WireU32Int_rt hwf h
  · exact fun b v r hwf h => WireU64Int_rt hwf h
  · exact fun b v r _ h => Wire3Bytes_rt h
  · exact fun b v r _ h => Bytes8Element_rt h
  · exact fun b v r _ h => Wire32Bytes_rt h
  · exact fun b v r _ h => Wire33Bytes_rt h
  · exact fun b v r _ h => Wire64Bytes_rt h
  · exact fun b v r _ h => SignatureElement_rt h
  · exact fun b v r _ h => ChainHashElement_rt h
  · exact fun b v r _ h => PointElement_rt h
  · exact fun b v r _ h => NodeAliasElement_rt h
  · exact fun b v r hwf h => IgnoredBytesElement_rt hwf h
  · exact fun b v r hwf h => WireU16SizedBytes_rt hwf h
  · exact fun b v r _ h => RemainderTypeWire_rt h
  · exact fun b v r hwf h => ShortChannelIDElement_rt hwf h
  · exact fun b c r hwf hna h => MessageDecoder_rt hwf hna h

/-- Witness for the round-trip theorem at the literal ping message
`001200050003000000`. -/
theorem round_trip_universal_witness :
    MessageContainer.to_bytes (.Ping ⟨5, [0, 0, 0]⟩) ++ ([] : Bytes) =
      [0, 18, 0, 5, 0, 3, 0, 0, 0] :=
  round_trip_universal.2 [0, 18, 0, 5, 0, 3, 0, 0, 0] (.Ping ⟨5, [0, 0, 0]⟩)
    [] (by decide) (by decide) (by decide)

/-- C2: decoding `be16(9999) ++ payload` does not produce an `Unknown`
message — `MessageType::from_int(9999)` is `None` and the decoder unwraps
it, so the decode panics. -/
theorem unknown_type_9999_panics :
    beNat [39, 15] = 9999 ∧
    MessageType.from_int 9999 = none ∧
    MessageDecoder.from_bytes ([39, 15] ++ [1, 2, 3]) = .panic := by
  decide

/-- C3: dispatch of an inbound ping replies on the same connection with
exactly one pong whose ignored field is `num_pong_bytes` zero bytes,
independent of the ping's own ignored payload. -/
theorem ping_pong_reply (st : MiniPeer) (ping : PingMessage) (key : Bytes)
    (dc : Bool) (cs : ConnectStep) (cso : Bool)
    (hkey : key ∈ st.node_connections) :
    st.handle_inbound_message (.Ping ping) key dc true cs cso =
      .ok st [(key, .Pong ⟨List.replicate ping.num_pong_bytes 0⟩)] :=
  dispatch_ping_eq st ping key dc cs cso hkey

/-- Witness for the ping reply at the literal scenario: ping requesting 5
bytes with 2 nonzero ignored bytes. -/
theorem ping_pong_reply_witness :
    MiniPeer.handle_inbound_message ⟨[[1]], [], []⟩ (.Ping ⟨5, [9, 9]⟩) [1]
      false true .success true =
      .ok ⟨[[1]], [], []⟩ [([1], .Pong ⟨[0, 0, 0, 0, 0]⟩)] :=
  ping_pong_reply ⟨[[1]], [], []⟩ ⟨5, [9, 9]⟩ [1] false .success true
    (by decide)

/-- C4: on the domain `block < 2^24`, `tx < 2^24`, `output < 2^16`, encoding
a short-channel-id yields exactly 8 bytes — 3-byte big-endian block, 3-byte
big-endian tx, 2-byte big-endian output — and decoding them returns the same
triple. -/
theorem short_channel_id_bijection (block tx output : Nat)
    (hb : block < 16777216) (ht : tx < 16777216) (ho : output < 65536) :
    (ShortChannelIDElement.to_bytes ⟨block, tx, output⟩).length = 8 ∧
    ShortChannelIDElement.to_bytes ⟨block, tx, output⟩ =
      natToBe 3 block ++ natToBe 3 tx ++ natToBe 2 output ∧
    ShortChannelIDElement.from_bytes
        (ShortChannelIDElement.to_bytes ⟨block, tx, output⟩) =
      .ok ⟨block, tx, output⟩ [] := by
  have p3 : (256 : Nat) ^ 3 = 16777216 := by norm_num
  have p2 : (256 : Nat) ^ 2 = 65536 := by norm_num
  have hlen : (ShortChannelIDElement.to_bytes ⟨block, tx, output⟩).length = 8 := by
    simp [ShortChannelIDElement.to_bytes, length_natToBe]
  refine ⟨hlen, rfl, ?_⟩
  unfold ShortChannelIDElement.from_bytes
  rw [if_neg (by omega)]
  have hassoc : ShortChannelIDElement.to_bytes ⟨block, tx, output⟩ =
      natToBe 3 block ++ (natToBe 3 tx ++ natToBe 2 output) := by
    unfold ShortChannelIDElement.to_bytes
    rw [List.append_assoc]
  have t3 : (ShortChannelIDElement.to_bytes ⟨block, tx, output⟩).take 3 =
      natToBe 3 block := by
    rw [hassoc]
    exact List.take_left' (length_natToBe 3 block)
  have d3 : (ShortChannelIDElement.to_bytes ⟨block, tx, output⟩).drop 3 =
      natToBe 3 tx ++ natToBe 2 output := by
    rw [hassoc]
    exact List.drop_left' (length_natToBe 3 block)
  have d6 : (ShortChannelIDElement.to_bytes ⟨block, tx, output⟩).drop 6 =
      natToBe 2 output := by
    have : (ShortChannelIDElement.to_bytes ⟨block, tx, output⟩).drop 6 =
        ((ShortChannelIDElement.to_bytes ⟨block, tx, output⟩).drop 3).drop 3 := by
      rw [List.drop_drop]
    rw [this, d3]
    exact List.drop_left' (length_natToBe 3 tx)
  have d8 : (ShortChannelIDElement.to_bytes ⟨block, tx, output⟩).drop 8 =
      ([] : Bytes) :=
    List.drop_eq_nil_of_le (le_of_eq hlen)
  have dt3 : ((ShortChannelIDElement.to_bytes ⟨block, tx, output⟩).drop 3).take 3 =
      natToBe 3 tx := by
    rw [d3]
    exact List.take_left' (length_natToBe 3 tx)
  have dt2 : ((ShortChannelIDElement.to_bytes ⟨block, tx, output⟩).drop 6).take 2 =
      natToBe 2 output := by
    rw [d6]
    exact List.take_of_length_le (le_of_eq (length_natToBe 2 output))
  rw [t3, dt3, dt2, d8,
    beNat_natToBe 3 block (by rw [p3]; exact hb),
    beNat_natToBe 3 tx (by rw [p3]; exact ht),
    beNat_natToBe 2 output (by rw [p2]; exact ho)]

/-- Witness for the short-channel-id bijection at the literal scenario
`(block = 256, tx = 2, output = 3)`. -/
theorem short_channel_id_bijection_witness :
    ShortChannelIDElement.from_bytes
        (ShortChannelIDElement.to_bytes ⟨256, 2, 3⟩) =
      .ok ⟨256, 2, 3⟩ [] :=
  (short_channel_id_bijection 256 2 3 (by decide) (by decide) (by decide)).2.2

/-- C5: primitive decoding is not total — a `u16_sized_bytes` whose declared
length exceeds the available bytes, a `node_addresses` entry truncated
mid-address, a u64 input of length 4..7, and a short 32-byte read all panic
instead of returning `TooFewBytes`/`InvalidValue`. -/
theorem decode_truncation_panics :
    WireU16SizedBytes.from_bytes [0, 5] = .panic ∧
    NodeAddressesElement.from_bytes [0, 3, 1, 0, 0] = .panic ∧
    WireU64Int.from_bytes [1, 2, 3, 4] = .panic ∧
    Wire32Bytes.from_bytes [1] = .panic := by
  decide

/-- On the success path, `open_node_connection` does not touch the
known-nodes table. -/
theorem open_node_connection_known_nodes (st : MiniPeer) (node : Node)
    (cs : ConnectStep) (cso : Bool) {st2 : MiniPeer}
    {sent : List MessageContainer}
    (h : st.open_node_connection node cs cso = .ok st2 sent) :
    st2.known_nodes = st.known_nodes := by
  have hinit : InitMessage.from_bytes init_bytes = .ok ⟨[], [170], []⟩ [] := by
    decide
  cases cs with
  | connectFail => exact absurd h (by simp [MiniPeer.open_node_connection])
  | handshakeFail => exact absurd h (by simp [MiniPeer.open_node_connection])
  | success =>
    simp only [MiniPeer.open_node_connection, hinit] at h
    cases cso with
    | false => simp at h
    | true =>
      simp only [if_true, OpenResult.ok.injEq] at h
      obtain ⟨hst, _⟩ := h
      subst hst
      rfl

/-- C6: `open_node_connection` is atomic with respect to the connection map:
any connect or handshake failure returns an error with the peer state — in
particular the connection map — exactly as before, and a successful return
adds at most the new node's key after the handshake completed. -/
theorem open_connection_atomic (st : MiniPeer) (node : Node)
    (step : ConnectStep) (sendOk : Bool) :
    ((step = .connectFail ∨ step = .handshakeFail) →
      ∃ e, st.open_node_connection node step sendOk = .err e st) ∧
    (∀ st2 sent, st.open_node_connection node step sendOk = .ok st2 sent →
      step = .success ∧ st2.known_channels = st.known_channels ∧
      st2.known_nodes = st.known_nodes ∧
      ∀ k, k ∈ st2.node_connections →
        k ∈ st.node_connections ∨ k = node.public_key) := by
  constructor
  · rintro (h | h) <;> subst h
    · exact ⟨.NodeConnectionError, rfl⟩
    · exact ⟨.NodeHandshakeError, rfl⟩
  · intro st2 sent hok
    have hinit : InitMessage.from_bytes init_bytes = .ok ⟨[], [170], []⟩ [] := by
      decide
    cases step with
    | connectFail => exact absurd hok (by simp [MiniPeer.open_node_connection])
    | handshakeFail =>
      exact absurd hok (by simp [MiniPeer.open_node_connection])
    | success =>
      simp only [MiniPeer.open_node_connection, hinit] at hok
      cases sendOk with
      | false => simp at hok
      | true =>
        simp only [if_true, OpenResult.ok.injEq] at hok
        obtain ⟨hst, _⟩ := hok
        subst hst
        exact ⟨rfl, rfl, rfl, fun k hk => keyInsert_mem hk⟩

/-- Witness for the atomicity theorem: a failed handshake on an empty peer
returns an error with the peer unchanged. -/
theorem open_connection_atomic_witness :
    ∃ e, MiniPeer.open_node_connection ⟨[], [], []⟩
        ⟨List.replicate 33 3, [127, 0, 0, 1], 9735⟩ .handshakeFail true =
      .err e ⟨[], [], []⟩ :=
  (open_connection_atomic ⟨[], [], []⟩
    ⟨List.replicate 33 3, [127, 0, 0, 1], 9735⟩ .handshakeFail true).1
    (Or.inr rfl)

/-- C7 counterexample: on a successful `open_node_connection` the init sent
carries the single local-features byte 0xAA = 170, and bit 0 of 170 is 0 —
refuting the claim that bit 0 is set.  Evaluated at an empty peer. -/
theorem init_local_features_bit0_clear :
    MiniPeer.open_node_connection ⟨[], [], []⟩
        ⟨List.replicate 33 2, [127, 0, 0, 1], 9735⟩ .success true =
      .ok ⟨[List.replicate 33 2], [], []⟩ [.Init ⟨[], [170], []⟩] ∧
    170 % 2 = 0 := by
  decide

/-- C7 (amended): on every successful `open_node_connection`, immediately
after the handshake exactly one init message is sent, whose global_features
is empty, whose local_features is the single byte 0xAA (bit 0 clear), and
whose trailing tlv is empty. -/
theorem open_connection_sends_init (st : MiniPeer) (node : Node) :
    st.open_node_connection node .success true =
      .ok { st with node_connections :=
              keyInsert node.public_key st.node_connections }
        [.Init ⟨[], [170], []⟩] ∧
    170 % 2 = 0 := by
  have hinit : InitMessage.from_bytes init_bytes = .ok ⟨[], [170], []⟩ [] := by
    decide
  exact ⟨by simp only [MiniPeer.open_node_connection, hinit, if_true], rfl⟩

/-- A concrete node announcement whose announcer is already connected in the
C8 counterexample state. -/
def annConnected : NodeAnnouncementMessage :=
  ⟨List.replicate 64 0, [], 0, List.replicate 33 2, [0, 0, 0],
    List.replicate 32 0, ⟨[], [], [], [], []⟩⟩

/-- C8 counterexample: a node_announcement whose node_id is absent from the
known-nodes set but whose node is already connected is NOT inserted —
dispatch returns with known-nodes still empty, refuting insertion
"independent of whether a connection to that node already exists". -/
theorem node_announcement_skipped_when_connected :
    mapContains ([] : List (Bytes × NodeAnnouncementMessage))
        annConnected.node_id = false ∧
    MiniPeer.handle_inbound_message ⟨[List.replicate 33 2], [], []⟩
        (.NodeAnnouncement annConnected) (List.replicate 33 2) false true
        .success true =
      .ok ⟨[List.replicate 33 2], [], []⟩ [] := by
  decide

/-- C8 (amended): for an inbound node_announcement, dispatch inserts the
announcement into known-nodes keyed by node_id exactly when the node_id is
absent from known-nodes AND no connection to that node exists; when a
connection to the announced node already exists, the peer state is returned
unchanged with nothing sent. -/
theorem node_announcement_insert (st : MiniPeer)
    (ann : NodeAnnouncementMessage) (key : Bytes) (dc sendOk : Bool)
    (cs : ConnectStep) (cso : Bool) (hkey : key ∈ st.node_connections) :
    (ann.node_id ∈ st.node_connections →
      st.handle_inbound_message (.NodeAnnouncement ann) key dc sendOk cs cso =
        .ok st []) ∧
    (ann.node_id ∉ st.node_connections →
      mapContains st.known_nodes ann.node_id = false →
      ∀ st2 sent,
        st.handle_inbound_message (.NodeAnnouncement ann) key dc sendOk cs
            cso = .ok st2 sent →
        mapLookup st2.known_nodes ann.node_id = some ann) := by
  constructor
  · intro hc
    simp only [MiniPeer.handle_inbound_message, hkey, if_true, hc]
  · intro hnc hkn st2 sent hok
    have hl := mapLookup_insert st.known_nodes ann.node_id ann
    simp only [MiniPeer.handle_inbound_message, hkey, if_true] at hok
    rw [if_neg hnc] at hok
    rw [hkn] at hok
    simp only [Bool.false_eq_true, if_false] at hok
    cases hn : ann.as_node with
    | none =>
      rw [hn] at hok
      simp only [DispatchResult.ok.injEq] at hok
      obtain ⟨hst, _⟩ := hok
      subst hst
      exact hl
    | some node =>
      rw [hn] at hok
      cases dc with
      | false =>
        simp only [Bool.false_eq_true, if_false, DispatchResult.ok.injEq]
          at hok
        obtain ⟨hst, _⟩ := hok
        subst hst
        exact hl
      | true =>
        simp only [if_true] at hok
        cases ho : MiniPeer.open_node_connection
            { st with known_nodes := mapInsert ann.node_id ann st.known_nodes }
            node cs cso with
        | ok st3 sent3 =>
          rw [ho] at hok
          simp only [DispatchResult.ok.injEq] at hok
          obtain ⟨hst, _⟩ := hok
          subst hst
          rw [open_node_connection_known_nodes _ _ _ _ ho]
          exact hl
        | err e st3 =>
          rw [ho] at hok
          exact absurd hok (by simp)
        | panic =>
          rw [ho] at hok
          exact absurd hok (by simp)

/-- A concrete node announcement (node id `[7]`, no addresses) for the C8
witness. -/
def ann7 : NodeAnnouncementMessage :=
  ⟨List.replicate 64 0, [], 0, [7], [0, 0, 0], List.replicate 32 0,
    ⟨[], [], [], [], []⟩⟩

/-- Witness for the amended insertion theorem: an unconnected, unknown
announcer is inserted into known-nodes. -/
theorem node_announcement_insert_witness :
    mapLookup (MiniPeer.mk [[9]] [] [([7], ann7)]).known_nodes [7] =
      some ann7 :=
  (node_announcement_insert ⟨[[9]], [], []⟩ ann7 [9] false true .success true
      (by decide)).2 (by decide) (by decide)
    ⟨[[9]], [], [([7], ann7)]⟩ [] (by decide)

/-- C9: after sending Act One the initiator performs a single read
requesting 66 bytes — not exactly 50 — before producing Act Three. -/
theorem handshake_act_two_read :
    NodeConnection.handshake_io =
      [.writeActOne, .readRequest 66, .writeActThree] ∧
    HandshakeStep.readRequest 50 ∉ NodeConnection.handshake_io := by
  decide

/-- C10: the pong reply is a function of the ping's num_pong_bytes alone —
for two pings with equal num_pong_bytes and arbitrary ignored payloads, the
constructed pongs, their encodings, and the full dispatch results are
identical (two-run noninterference). -/
theorem pong_noninterference (st : MiniPeer) (key : Bytes)
    (p1 p2 : PingMessage) (dc : Bool) (cs : ConnectStep) (cso : Bool)
    (hnum : p1.num_pong_bytes = p2.num_pong_bytes)
    (hkey : key ∈ st.node_connections) :
    PongMessage.from_ping p1 = PongMessage.from_ping p2 ∧
    (PongMessage.from_ping p1).to_bytes =
      (PongMessage.from_ping p2).to_bytes ∧
    st.handle_inbound_message (.Ping p1) key dc true cs cso =
      st.handle_inbound_message (.Ping p2) key dc true cs cso := by
  have h1 : PongMessage.from_ping p1 = PongMessage.from_ping p2 := by
    unfold PongMessage.from_ping
    rw [hnum]
  refine ⟨h1, by rw [h1], ?_⟩
  rw [dispatch_ping_eq st p1 key dc cs cso hkey,
    dispatch_ping_eq st p2 key dc cs cso hkey, h1]

/-- Witness for noninterference: pings `(2, [5,6,7])` and `(2, [])` produce
identical replies and dispatch results. -/
theorem pong_noninterference_witness :
    PongMessage.from_ping ⟨2, [5, 6, 7]⟩ = PongMessage.from_ping ⟨2, []⟩ ∧
    (PongMessage.from_ping ⟨2, [5, 6, 7]⟩).to_bytes =
      (PongMessage.from_ping ⟨2, []⟩).to_bytes ∧
    MiniPeer.handle_inbound_message ⟨[[4]], [], []⟩ (.Ping ⟨2, [5, 6, 7]⟩)
        [4] false true .success true =
      MiniPeer.handle_inbound_message ⟨[[4]], [], []⟩ (.Ping ⟨2, []⟩) [4]
        false true .success true :=
  pong_noninterference ⟨[[4]], [], []⟩ [4] ⟨2, [5, 6, 7]⟩ ⟨2, []⟩ false
    .success true (by decide) (by decide)

end MiniPeerModel
